import Mathlib

/-!
Verification development for the fun-game server engine
(`src/backend/src/GameEngine.js` plus `src/backend/shared/constants.js`,
and the `Unit` data class of the shared game module).

Modelling conventions:
* JavaScript numbers are modelled as exact rationals (`ℚ`).
* `Math.sqrt` is modelled by an explicit function parameter `sq : ℚ → ℚ`;
  theorems that depend on the value of a square root carry the hypothesis
  that `sq` returns the exact nonnegative square root at the relevant
  inputs (JS computes a float approximation; games with a different oracle
  are quantified over).  `Math.atan2` is likewise a parameter
  `atn : ℚ → ℚ → ℚ` (its value is only stored, never branched on).
* `Math.PI` is the exact rational value of the IEEE-754 double `Math.PI`.
* Object references mutated in place are modelled by id-keyed functional
  updates; engine-created units have unique ids (a fresh counter), under
  which the two semantics agree.
* The `Infinity` sentinels used by the JS minimum-searches are modelled by
  `Option` accumulators, and the two-element `for` loops over
  `['left','right']` and over tower keys are unrolled.
* `Math.random` inside `shuffleArray` is modelled by quantifying over an
  arbitrary permutation of the default deck in the reachability relation.
-/

set_option maxRecDepth 16000

set_option maxHeartbeats 2000000

namespace FG

/-! Shared constants (`constants.js`). -/

def TICK_RATE : ℚ := 20

def ELIXIR_REGEN_RATE : ℚ := 2.8

def ELIXIR_REGEN_RATE_DOUBLE : ℚ := 5.6

def MAX_ELIXIR : ℚ := 10

def STARTING_ELIXIR : ℚ := 5

def ARENA_WIDTH : ℚ := 18

def ARENA_HALF_LENGTH : ℚ := 16

def RIVER_Z : ℚ := 0

def RIVER_WIDTH : ℚ := 2

def BRIDGE_WIDTH : ℚ := 3

def BRIDGE_X_LEFT : ℚ := -6

def BRIDGE_X_RIGHT : ℚ := 6

/-- Exact rational value of the IEEE-754 double constant `Math.PI`. -/
def mathPI : ℚ := 884279719003555 / 281474976710656

/-- String constants used by the code (card ids, unit types, priorities,
error messages, win reasons).  Kept as named definitions. -/
def knightId : String := "knight"

def archerId : String := "archer"

def giantId : String := "giant"

def minionsId : String := "minions"

def fireballId : String := "fireball"

def skeletonId : String := "skeleton"

def musketeerId : String := "musketeer"

def bomberId : String := "bomber"

def tpUnit : String := "unit"

def tpBuilding : String := "building"

def typeMelee : String := "melee"

def typeRanged : String := "ranged"

def typeFlying : String := "flying"

def typeSpell : String := "spell"

def errInvalidCard : String := "Invalid card"

def errNotInHand : String := "Card not in hand"

def errNotEnoughElixir : String := "Not enough elixir"

def errInvalidPos : String := "Invalid deploy position"

def reasonMainTower : String := "main_tower_destroyed"

def t1MainId : String := "t1_main"

def t1LeftId : String := "t1_left"

def t1RightId : String := "t1_right"

def t2MainId : String := "t2_main"

def t2LeftId : String := "t2_left"

def t2RightId : String := "t2_right"

/-! Data model. -/

/-- The two player slots.  The room layer only ever passes 1 or 2 as
`playerNumber`, so the player key is modelled as a two-valued type. -/
inductive PlayerId where
  | P1
  | P2
deriving DecidableEq

/-- The `playerNum === 1 ? 2 : 1` idiom. -/
def otherPlayer : PlayerId → PlayerId
  | .P1 => .P2
  | .P2 => .P1

/-- A 2D position on the arena plane. -/
structure Pos where
  x : ℚ
  z : ℚ
deriving DecidableEq

/-- Per-unit stat block, the union of the fields appearing in the card
definitions of `constants.js`.  Fields a card does not set default to the
JS-falsy values `0` / `false` / `[]` used by the engine's truthiness
checks. -/
structure UnitStats where
  health : ℚ := 0
  damage : ℚ := 0
  attackSpeed : ℚ := 0
  moveSpeed : ℚ := 0
  range : ℚ := 0
  hitboxRadius : ℚ := 0
  splashRadius : ℚ := 0
  radius : ℚ := 0
  towerDamage : ℚ := 0
  targetsPriority : List String := []
  flying : Bool := false
  cannotTargetFlying : Bool := false
deriving DecidableEq

/-- A card definition from `constants.js`.  `count` is `none` when the JS
object has no `count` field (the `card.count || 1` idiom reads it). -/
structure Card where
  id : String
  name : String
  elixirCost : ℚ
  type : String
  count : Option Nat := none
  stats : UnitStats
  color : Nat := 0
deriving DecidableEq

def knightCard : Card :=
  { id := knightId, name := "Knight", elixirCost := 3, type := typeMelee, count := some 1,
    stats := { health := 800, damage := 75, attackSpeed := 1.1, moveSpeed := 1.0, range := 0.8,
               hitboxRadius := 0.4, targetsPriority := [tpUnit, tpBuilding] },
    color := 0x4a90d9 }

def archerCard : Card :=
  { id := archerId, name := "Archers", elixirCost := 3, type := typeRanged, count := some 2,
    stats := { health := 250, damage := 50, attackSpeed := 1.2, moveSpeed := 1.0, range := 5.0,
               hitboxRadius := 0.3, targetsPriority := [tpUnit, tpBuilding] },
    color := 0xd94a8c }

def giantCard : Card :=
  { id := giantId, name := "Giant", elixirCost := 5, type := typeMelee, count := some 1,
    stats := { health := 2000, damage := 120, attackSpeed := 1.5, moveSpeed := 0.5, range := 0.8,
               hitboxRadius := 0.6, targetsPriority := [tpBuilding] },
    color := 0x8b4513 }

def minionsCard : Card :=
  { id := minionsId, name := "Minions", elixirCost := 3, type := typeFlying, count := some 3,
    stats := { health := 150, damage := 40, attackSpeed := 1.0, moveSpeed := 1.5, range := 2.0,
               hitboxRadius := 0.25, targetsPriority := [tpUnit, tpBuilding], flying := true },
    color := 0x9b59b6 }

def fireballCard : Card :=
  { id := fireballId, name := "Fireball", elixirCost := 4, type := typeSpell,
    stats := { damage := 325, radius := 2.5, towerDamage := 130 },
    color := 0xff6b35 }

def skeletonCard : Card :=
  { id := skeletonId, name := "Skeletons", elixirCost := 1, type := typeMelee, count := some 3,
    stats := { health := 80, damage := 35, attackSpeed := 1.0, moveSpeed := 1.2, range := 0.5,
               hitboxRadius := 0.2, targetsPriority := [tpUnit, tpBuilding] },
    color := 0xecf0f1 }

def musketeerCard : Card :=
  { id := musketeerId, name := "Musketeer", elixirCost := 4, type := typeRanged, count := some 1,
    stats := { health := 500, damage := 100, attackSpeed := 1.1, moveSpeed := 0.9, range := 6.0,
               hitboxRadius := 0.35, targetsPriority := [tpUnit, tpBuilding] },
    color := 0xe74c3c }

def bomberCard : Card :=
  { id := bomberId, name := "Bomber", elixirCost := 2, type := typeRanged, count := some 1,
    stats := { health := 200, damage := 100, splashRadius := 1.5, attackSpeed := 1.9,
               moveSpeed := 0.9, range := 4.5, hitboxRadius := 0.3,
               targetsPriority := [tpUnit, tpBuilding], cannotTargetFlying := true },
    color := 0x2c3e50 }

/-- The `CARDS` lookup object. -/
def CARDS (cardId : String) : Option Card :=
  if cardId == knightId then some knightCard
  else if cardId == archerId then some archerCard
  else if cardId == giantId then some giantCard
  else if cardId == minionsId then some minionsCard
  else if cardId == fireballId then some fireballCard
  else if cardId == skeletonId then some skeletonCard
  else if cardId == musketeerId then some musketeerCard
  else if cardId == bomberId then some bomberCard
  else none

def DEFAULT_DECK : List String :=
  [knightId, archerId, giantId, minionsId, fireballId, skeletonId, musketeerId, bomberId]

/-- A tower instance (template stats plus id, position, mutable health and
the animation bookkeeping fields). -/
structure Tower where
  id : String
  health : ℚ
  damage : ℚ
  attackSpeed : ℚ
  range : ℚ
  radius : ℚ
  position : Pos
  lastAttackTick : Option Nat := none
  lastTarget : Option Nat := none
deriving DecidableEq

inductive TowerKey where
  | main
  | left
  | right
deriving DecidableEq

structure SideTowers where
  main : Tower
  left : Tower
  right : Tower
deriving DecidableEq

def getTowerK (t : SideTowers) : TowerKey → Tower
  | .main => t.main
  | .left => t.left
  | .right => t.right

def setTowerK (t : SideTowers) : TowerKey → Tower → SideTowers
  | .main, x => { t with main := x }
  | .left, x => { t with left := x }
  | .right, x => { t with right := x }

/-- A unit object as created by `spawnUnits`. -/
structure Unit where
  id : Nat
  cardId : String
  owner : PlayerId
  position : Pos
  rotation : ℚ
  stats : UnitStats
  health : ℚ
  attackCooldown : ℚ
  spawnTick : Nat
  lastAttackTick : Option Nat := none
deriving DecidableEq

/-- Per-player economy and card-cycle state. -/
structure PlayerState where
  elixir : ℚ
  deck : List String
  hand : List String
  nextCard : Option String
deriving DecidableEq

/-- A transient spell effect. -/
structure Effect where
  type : String
  position : Pos
  radius : ℚ
  duration : ℚ
deriving DecidableEq

/-- The full engine state.  `towerCooldowns` is the JS object keyed by
tower id (an association list; missing key reads as 0 via `|| 0`).
`nextUnitId` models the module-global unit id counter (per-engine here;
only one engine is in play in all our statements). -/
structure EngineState where
  tickCount : Nat
  player1 : PlayerState
  player2 : PlayerState
  towers1 : SideTowers
  towers2 : SideTowers
  units : List Unit
  effects : List Effect
  towerCooldowns : List (String × ℚ)
  nextUnitId : Nat
deriving DecidableEq

def getPlayer (s : EngineState) : PlayerId → PlayerState
  | .P1 => s.player1
  | .P2 => s.player2

def setPlayer (s : EngineState) : PlayerId → PlayerState → EngineState
  | .P1, p => { s with player1 := p }
  | .P2, p => { s with player2 := p }

def towersOf (s : EngineState) : PlayerId → SideTowers
  | .P1 => s.towers1
  | .P2 => s.towers2

def modifyTower (s : EngineState) (p : PlayerId) (k : TowerKey) (f : Tower → Tower) : EngineState :=
  match p with
  | .P1 => { s with towers1 := setTowerK s.towers1 k (f (getTowerK s.towers1 k)) }
  | .P2 => { s with towers2 := setTowerK s.towers2 k (f (getTowerK s.towers2 k)) }

def mapUnits (s : EngineState) (f : List Unit → List Unit) : EngineState :=
  { s with units := f s.units }

/-- Lookup in the `towerCooldowns` object with the `|| 0` default. -/
def cdLookup (m : List (String × ℚ)) (k : String) : ℚ :=
  ((m.find? (fun e => e.1 == k)).map (fun e => e.2)).getD 0

def cdSet (s : EngineState) (k : String) (v : ℚ) : EngineState :=
  { s with towerCooldowns := (k, v) :: s.towerCooldowns.filter (fun e => ¬ e.1 == k) }

/-- `Math.sign`. -/
def jsSign (q : ℚ) : ℚ :=
  if 0 < q then 1 else if q < 0 then -1 else 0

/-- `Array.prototype.indexOf`: first index, `-1` when absent. -/
def jsIndexOf (l : List String) (a : String) : Int :=
  if a ∈ l then (l.indexOf a : Int) else -1

/-- `Array.prototype.splice(start, 1)`: removes (at most) one element at
`start` (negative `start` counts from the end, clamped at 0; `start` past
the end removes nothing) and returns the remaining list together with the
removed element. -/
def jsSpliceRemove1 (l : List String) (start : Int) : List String × Option String :=
  let st : Nat := if start < 0 then (l.length - (-start).toNat) else start.toNat
  if st < l.length then (l.eraseIdx st, l.get? st)
  else (l, none)

/-! Geometry (`getDistance`, river and bridge tests). -/

/-- `getDistance`: `Math.sqrt(dx*dx + dz*dz)` with `Math.sqrt` abstracted
as `sq`. -/
def getDistance (sq : ℚ → ℚ) (pos1 pos2 : Pos) : ℚ :=
  sq ((pos2.x - pos1.x) * (pos2.x - pos1.x) + (pos2.z - pos1.z) * (pos2.z - pos1.z))

/-- The exact squared Euclidean distance, used as the spec-side yardstick
when stating nearest/within-radius properties. -/
def dSq (pos1 pos2 : Pos) : ℚ :=
  (pos2.x - pos1.x) * (pos2.x - pos1.x) + (pos2.z - pos1.z) * (pos2.z - pos1.z)

/-- `crossesRiver(oldZ, newZ, playerNum)`. -/
def crossesRiver (oldZ newZ : ℚ) (playerNum : PlayerId) : Bool :=
  let riverMin := RIVER_Z - RIVER_WIDTH / 2
  let riverMax := RIVER_Z + RIVER_WIDTH / 2
  match playerNum with
  | .P1 => decide (oldZ < riverMin) && decide (riverMin ≤ newZ)
  | .P2 => decide (riverMax < oldZ) && decide (newZ ≤ riverMax)

/-- `isOnBridge(x)`. -/
def isOnBridge (x : ℚ) : Bool :=
  let halfBridge := BRIDGE_WIDTH / 2
  (decide (BRIDGE_X_LEFT - halfBridge ≤ x) && decide (x ≤ BRIDGE_X_LEFT + halfBridge)) ||
  (decide (BRIDGE_X_RIGHT - halfBridge ≤ x) && decide (x ≤ BRIDGE_X_RIGHT + halfBridge))

/-! Towers and targeting. -/

/-- `getClosestEnemyTower`, additionally reporting which tower field was
selected (standing in for the object reference the JS code returns).  The
`Infinity` sentinel is an `Option` accumulator and the
`for key of ['left','right']` loop is unrolled. -/
def getClosestEnemyTowerK (sq : ℚ → ℚ) (position : Pos) (towers : SideTowers) :
    Option (TowerKey × Tower) :=
  let afterLeft : Option (TowerKey × Tower × ℚ) :=
    if towers.left.health ≤ 0 then none
    else some (.left, towers.left, getDistance sq position towers.left.position)
  let afterSides : Option (TowerKey × Tower × ℚ) :=
    if towers.right.health ≤ 0 then afterLeft
    else
      let dist := getDistance sq position towers.right.position
      match afterLeft with
      | none => some (.right, towers.right, dist)
      | some (k, t, cd) =>
        if dist < cd then some (.right, towers.right, dist) else some (k, t, cd)
  if 0 < towers.main.health then
    let mainDist := getDistance sq position towers.main.position
    match afterSides with
    | none => some (.main, towers.main)
    | some (k, t, cd) => if mainDist < cd then some (.main, towers.main) else some (k, t)
  else
    afterSides.map (fun x => (x.1, x.2.1))

/-- `getClosestEnemyTower` as the source returns it (the tower object). -/
def getClosestEnemyTower (sq : ℚ → ℚ) (position : Pos) (towers : SideTowers) : Option Tower :=
  (getClosestEnemyTowerK sq position towers).map (fun x => x.2)

/-- The target returned by `findTarget`: either a unit object or a tower
object (tagged with its field path so a later in-place mutation can be
expressed functionally). -/
inductive Target where
  | unitT : Unit → Target
  | towerT : PlayerId → TowerKey → Tower → Target
deriving DecidableEq

def Target.position : Target → Pos
  | .unitT u => u.position
  | .towerT _ _ t => t.position

/-- The building-priority tail of `findTarget` (from the
`priorities.includes('building')` check to the final `return bestTarget`). -/
def findTargetBuilding (sq : ℚ → ℚ) (s : EngineState) (unit : Unit) (enemyPlayer : PlayerId)
    (best : Option (Unit × ℚ)) : Option Target :=
  if unit.stats.targetsPriority.contains tpBuilding then
    match getClosestEnemyTowerK sq unit.position (towersOf s enemyPlayer) with
    | some (k, tower) =>
      let towerDist := getDistance sq unit.position tower.position
      if (unit.stats.targetsPriority.length == 1) ||
          (match best with
           | none => true
           | some (_, bd) => decide (towerDist < bd)) then
        some (Target.towerT enemyPlayer k tower)
      else (best.map (fun b => Target.unitT b.1))
    | none => (best.map (fun b => Target.unitT b.1))
  else (best.map (fun b => Target.unitT b.1))

/-- `findTarget`.  The unit scan carries `(bestTarget, bestDistance)` as an
`Option` accumulator (the `Infinity` sentinel). -/
def findTarget (sq : ℚ → ℚ) (s : EngineState) (unit : Unit) : Option Target :=
  let enemyPlayer := otherPlayer unit.owner
  let canTargetFlying := !unit.stats.cannotTargetFlying
  let best : Option (Unit × ℚ) :=
    if unit.stats.targetsPriority.contains tpUnit then
      s.units.foldl
        (fun acc other =>
          if other.owner == unit.owner then acc
          else if other.health ≤ 0 then acc
          else if other.stats.flying && !canTargetFlying then acc
          else
            let distance := getDistance sq unit.position other.position
            match acc with
            | none => some (other, distance)
            | some (_, bd) => if distance < bd then some (other, distance) else acc)
        none
    else none
  match best with
  | some (bt, bd) =>
    if bd ≤ unit.stats.range + 2 then some (Target.unitT bt)
    else findTargetBuilding sq s unit enemyPlayer (some (bt, bd))
  | none => findTargetBuilding sq s unit enemyPlayer none

/-! Movement. -/

/-- `moveUnit`, returning the updated unit.  The source's early `return`
after redirecting toward a bridge is the `redirect` option. -/
def moveUnit (sq : ℚ → ℚ) (atn : ℚ → ℚ → ℚ) (unit : Unit) (targetPos : Pos) (deltaTime : ℚ) :
    Unit :=
  let dx := targetPos.x - unit.position.x
  let dz := targetPos.z - unit.position.z
  let distance := sq (dx * dx + dz * dz)
  if distance < 0.1 then unit
  else
    let dirX := dx / distance
    let dirZ := dz / distance
    let moveSpeed := unit.stats.moveSpeed
    let movement := moveSpeed * deltaTime
    let newZ := unit.position.z + dirZ * movement
    let redirect : Option Unit :=
      if crossesRiver unit.position.z newZ unit.owner then
        if !isOnBridge unit.position.x then
          let nearestBridgeX := if unit.position.x < 0 then BRIDGE_X_LEFT else BRIDGE_X_RIGHT
          let toBridgeX := nearestBridgeX - unit.position.x
          if 0.1 < |toBridgeX| then
            some { unit with position :=
              { unit.position with x := unit.position.x + jsSign toBridgeX * min movement |toBridgeX| } }
          else none
        else none
      else none
    match redirect with
    | some u => u
    | none =>
      { unit with
        position := { x := unit.position.x + dirX * movement, z := unit.position.z + dirZ * movement },
        rotation := atn dirX dirZ }

/-! Combat. -/

/-- The filter predicate of `getUnitsInRadius`. -/
def splashHit (sq : ℚ → ℚ) (position : Pos) (radius : ℚ) (excludeOwner : PlayerId) (u : Unit) :
    Bool :=
  !(u.owner == excludeOwner) && !(decide (u.health ≤ 0)) &&
    decide (getDistance sq position u.position ≤ radius)

/-- `getUnitsInRadius`. -/
def getUnitsInRadius (sq : ℚ → ℚ) (s : EngineState) (position : Pos) (radius : ℚ)
    (excludeOwner : PlayerId) : List Unit :=
  s.units.filter (splashHit sq position radius excludeOwner)

/-- `processUnitAttack`.  The JS code mutates the shared unit / tower
objects; here the mutations are id-keyed (respectively field-keyed)
updates, which coincide with reference mutation for the unique ids the
engine creates. -/
def processUnitAttack (sq : ℚ → ℚ) (s : EngineState) (unit : Unit) (target : Target)
    (deltaTime : ℚ) : EngineState :=
  let cd := unit.attackCooldown - deltaTime
  if cd ≤ 0 then
    let damage := unit.stats.damage
    let s1 :=
      if unit.stats.splashRadius ≠ 0 then
        mapUnits s (List.map (fun u =>
          if splashHit sq target.position unit.stats.splashRadius unit.owner u then
            { u with health := u.health - damage }
          else u))
      else
        match target with
        | .unitT tu =>
          mapUnits s (List.map (fun u =>
            if u.id == tu.id then { u with health := u.health - damage } else u))
        | .towerT p k _ =>
          modifyTower s p k (fun t => { t with health := t.health - damage })
    mapUnits s1 (List.map (fun u =>
      if u.id == unit.id then
        { u with attackCooldown := unit.stats.attackSpeed, lastAttackTick := some s.tickCount }
      else u))
  else
    mapUnits s (List.map (fun u =>
      if u.id == unit.id then { u with attackCooldown := cd } else u))

/-! Tower attacks. -/

/-- `findTowerTarget`: closest enemy unit strictly within `tower.range`. -/
def findTowerTarget (sq : ℚ → ℚ) (s : EngineState) (tower : Tower) (ownerPlayer : PlayerId) :
    Option Unit :=
  let enemyPlayer := otherPlayer ownerPlayer
  (s.units.foldl
    (fun (acc : Option Unit × ℚ) u =>
      if ¬ u.owner == enemyPlayer then acc
      else if u.health ≤ 0 then acc
      else
        let dist := getDistance sq tower.position u.position
        if dist < acc.2 then (some u, dist) else acc)
    (none, tower.range)).1

def towerPairs : List (PlayerId × TowerKey) :=
  [(.P1, .main), (.P1, .left), (.P1, .right), (.P2, .main), (.P2, .left), (.P2, .right)]

/-- One iteration of the `updateTowers` double loop. -/
def towerStep (sq : ℚ → ℚ) (deltaTime : ℚ) (s : EngineState) (pk : PlayerId × TowerKey) :
    EngineState :=
  let tower := getTowerK (towersOf s pk.1) pk.2
  if tower.health ≤ 0 then s
  else
    match findTowerTarget sq s tower pk.1 with
    | none => s
    | some target =>
      let cd := cdLookup s.towerCooldowns tower.id - deltaTime
      let s1 := cdSet s tower.id cd
      if cd ≤ 0 then
        let s2 := mapUnits s1 (List.map (fun u =>
          if u.id == target.id then { u with health := u.health - tower.damage } else u))
        let s3 := cdSet s2 tower.id (1 / tower.attackSpeed)
        modifyTower s3 pk.1 pk.2 (fun t =>
          { t with lastAttackTick := some s.tickCount, lastTarget := some target.id })
      else s1

def updateTowers (sq : ℚ → ℚ) (deltaTime : ℚ) (s : EngineState) : EngineState :=
  towerPairs.foldl (towerStep sq deltaTime) s

/-! Unit update loop. -/

/-- One iteration of the `for (const unit of this.units)` loop.  The loop
iterates over the (stable) list of unit objects; we iterate over their ids
and read the current version of the unit, which models the shared-object
mutation.  The second component collects `unitsToRemove`. -/
def updateUnitsStep (sq : ℚ → ℚ) (atn : ℚ → ℚ → ℚ) (deltaTime : ℚ)
    (acc : EngineState × List Nat) (uid : Nat) : EngineState × List Nat :=
  let s := acc.1
  match s.units.find? (fun u => u.id == uid) with
  | none => acc
  | some unit =>
    if unit.health ≤ 0 then (s, acc.2 ++ [uid])
    else
      match findTarget sq s unit with
      | some target =>
        let distance := getDistance sq unit.position target.position
        if distance ≤ unit.stats.range then
          (processUnitAttack sq s unit target deltaTime, acc.2)
        else
          (mapUnits s (List.map (fun u =>
            if u.id == uid then moveUnit sq atn unit target.position deltaTime else u)), acc.2)
      | none =>
        match getClosestEnemyTowerK sq unit.position (towersOf s (otherPlayer unit.owner)) with
        | some kt =>
          (mapUnits s (List.map (fun u =>
            if u.id == uid then moveUnit sq atn unit kt.2.position deltaTime else u)), acc.2)
        | none => (s, acc.2)

/-- `updateUnits`. -/
def updateUnits (sq : ℚ → ℚ) (atn : ℚ → ℚ → ℚ) (deltaTime : ℚ) (s : EngineState) : EngineState :=
  let ids := s.units.map (fun u => u.id)
  let res := ids.foldl (updateUnitsStep sq atn deltaTime) (s, [])
  mapUnits res.1 (List.filter (fun u => !(res.2.contains u.id)))

/-! Effects, elixir, win check, tiebreak. -/

def updateEffects (deltaTime : ℚ) (s : EngineState) : EngineState :=
  { s with effects := s.effects.filterMap (fun e =>
      let d := e.duration - deltaTime
      if 0 < d then some { e with duration := d } else none) }

def updateElixir (deltaTime : ℚ) (isDoubleElixir : Bool) (s : EngineState) : EngineState :=
  let rate := if isDoubleElixir then ELIXIR_REGEN_RATE_DOUBLE else ELIXIR_REGEN_RATE
  { s with
    player1 := { s.player1 with elixir := min MAX_ELIXIR (s.player1.elixir + rate * deltaTime) },
    player2 := { s.player2 with elixir := min MAX_ELIXIR (s.player2.elixir + rate * deltaTime) } }

/-- The result object of `update` / `checkWinCondition`. -/
structure WinResult where
  gameOver : Bool
  winner : Option Nat := none
  reason : Option String := none
deriving DecidableEq

def checkWinCondition (s : EngineState) : WinResult :=
  if s.towers1.main.health ≤ 0 then
    { gameOver := true, winner := some 2, reason := some reasonMainTower }
  else if s.towers2.main.health ≤ 0 then
    { gameOver := true, winner := some 1, reason := some reasonMainTower }
  else { gameOver := false }

/-- `getTiebreakWinner` (the `for key of ['main','left','right']` loop is
unrolled into the two sums). -/
def getTiebreakWinner (s : EngineState) : Nat :=
  let p1HP := 0 + max 0 s.towers1.main.health + max 0 s.towers1.left.health
    + max 0 s.towers1.right.health
  let p2HP := 0 + max 0 s.towers2.main.health + max 0 s.towers2.left.health
    + max 0 s.towers2.right.health
  if p2HP ≤ p1HP then 1 else 2

/-! Deployment. -/

def isValidDeployPosition (playerNumber : PlayerId) (x z : ℚ) : Bool :=
  if ARENA_WIDTH / 2 < |x| then false
  else if ARENA_HALF_LENGTH < |z| then false
  else
    match playerNumber with
    | .P1 => !(decide (RIVER_Z - RIVER_WIDTH / 2 + 0.5 < z))
    | .P2 => !(decide (z < RIVER_Z + RIVER_WIDTH / 2 - 0.5))

def spawnOffsets : List Pos :=
  [⟨0, 0⟩, ⟨0.5, 0.5⟩, ⟨-0.5, 0.5⟩, ⟨0.5, -0.5⟩]

/-- `spawnUnits`. -/
def spawnUnits (card : Card) (owner : PlayerId) (x z : ℚ) (s : EngineState) : EngineState :=
  let count := card.count.getD 1
  (List.range count).foldl
    (fun st i =>
      let offset := spawnOffsets.getD i ⟨0, 0⟩
      let u : Unit :=
        { id := st.nextUnitId, cardId := card.id, owner := owner,
          position := { x := x + offset.x, z := z + offset.z },
          rotation := if owner == PlayerId.P1 then 0 else mathPI,
          stats := card.stats, health := card.stats.health,
          attackCooldown := 0, spawnTick := st.tickCount }
      { st with units := st.units ++ [u], nextUnitId := st.nextUnitId + 1 })
    s

/-- `processSpell` (only the `fireball` branch exists).  Note the unit
loop has no liveness filter in the source. -/
def processSpell (sq : ℚ → ℚ) (cardId : String) (owner : PlayerId) (x z : ℚ) (s : EngineState) :
    EngineState :=
  match CARDS cardId with
  | none => s
  | some card =>
    if cardId == fireballId then
      let enemyOwner := otherPlayer owner
      let s1 := mapUnits s (List.map (fun u =>
        if u.owner == enemyOwner ∧ getDistance sq ⟨x, z⟩ u.position ≤ card.stats.radius then
          { u with health := u.health - card.stats.damage }
        else u))
      let s2 := [TowerKey.main, TowerKey.left, TowerKey.right].foldl
        (fun st k =>
          let tower := getTowerK (towersOf st enemyOwner) k
          if tower.health ≤ 0 then st
          else if getDistance sq ⟨x, z⟩ tower.position ≤ card.stats.radius then
            modifyTower st enemyOwner k (fun t =>
              { t with health := t.health - card.stats.towerDamage })
          else st)
        s1
      { s2 with effects := s2.effects ++
          [{ type := fireballId, position := ⟨x, z⟩, radius := card.stats.radius,
             duration := 0.5 }] }
    else s

/-- The result object of `deployCard`. -/
structure DeployResult where
  success : Bool
  error : Option String := none
deriving DecidableEq

/-- `deployCard`.  Returns the new engine state together with the result
object; every failing validation returns the state unchanged. -/
def deployCard (sq : ℚ → ℚ) (s : EngineState) (playerNumber : PlayerId) (cardId : String)
    (x z : ℚ) : EngineState × DeployResult :=
  let player := getPlayer s playerNumber
  match CARDS cardId with
  | none => (s, { success := false, error := some errInvalidCard })
  | some card =>
    if ¬ player.hand.contains cardId then
      (s, { success := false, error := some errNotInHand })
    else if player.elixir < card.elixirCost then
      (s, { success := false, error := some errNotEnoughElixir })
    else if ¬ isValidDeployPosition playerNumber x z then
      (s, { success := false, error := some errInvalidPos })
    else
      let s1 := setPlayer s playerNumber { player with elixir := player.elixir - card.elixirCost }
      let s2 :=
        if card.type == typeSpell then processSpell sq cardId playerNumber x z s1
        else spawnUnits card playerNumber x z s1
      let ps := getPlayer s2 playerNumber
      let cardIndex := ps.hand.indexOf cardId
      let newHand := ps.hand.eraseIdx cardIndex ++ ps.nextCard.toList
      let usedIndex := jsIndexOf ps.deck cardId
      let spliced := jsSpliceRemove1 ps.deck usedIndex
      let newDeck := spliced.1 ++ spliced.2.toList
      let s3 := setPlayer s2 playerNumber
        { ps with hand := newHand, deck := newDeck, nextCard := newDeck.get? 4 }
      (s3, { success := true })

/-! The main tick. -/

/-- `update(isDoubleElixir)`: one fixed tick.  Returns the post-tick state
together with the win-condition result the JS method returns. -/
def update (sq : ℚ → ℚ) (atn : ℚ → ℚ → ℚ) (isDoubleElixir : Bool) (s : EngineState) :
    EngineState × WinResult :=
  let s0 := { s with tickCount := s.tickCount + 1 }
  let deltaTime := 1 / TICK_RATE
  let s1 := updateElixir deltaTime isDoubleElixir s0
  let s2 := updateUnits sq atn deltaTime s1
  let s3 := updateTowers sq deltaTime s2
  let s4 := updateEffects deltaTime s3
  (s4, checkWinCondition s4)

/-! Construction. -/

def mkMainTower (tid : String) (pos : Pos) : Tower :=
  { id := tid, health := 4000, damage := 100, attackSpeed := 0.8, range := 7, radius := 2,
    position := pos }

def mkSideTower (tid : String) (pos : Pos) : Tower :=
  { id := tid, health := 2500, damage := 80, attackSpeed := 0.8, range := 6, radius := 1.5,
    position := pos }

/-- A freshly constructed engine whose two shuffled decks came out as `d1`
and `d2` (`initializeHands` draws `slice(0,4)` and `deck[4]`). -/
def initState (d1 d2 : List String) : EngineState :=
  { tickCount := 0,
    player1 := { elixir := STARTING_ELIXIR, deck := d1, hand := d1.take 4, nextCard := d1.get? 4 },
    player2 := { elixir := STARTING_ELIXIR, deck := d2, hand := d2.take 4, nextCard := d2.get? 4 },
    towers1 :=
      { main := mkMainTower t1MainId ⟨0, -14⟩,
        left := mkSideTower t1LeftId ⟨-6, -10⟩,
        right := mkSideTower t1RightId ⟨6, -10⟩ },
    towers2 :=
      { main := mkMainTower t2MainId ⟨0, 14⟩,
        left := mkSideTower t2LeftId ⟨-6, 10⟩,
        right := mkSideTower t2RightId ⟨6, 10⟩ },
    units := [], effects := [], towerCooldowns := [], nextUnitId := 1 }

/-- States reachable from a freshly constructed engine by `update` and
`deployCard` calls.  The shuffle outcomes are arbitrary permutations of
the default deck; the square-root and atan2 oracles are fixed for the run. -/
inductive Reachable (sq : ℚ → ℚ) (atn : ℚ → ℚ → ℚ) : EngineState → Prop where
  | init (d1 d2 : List String) (h1 : d1.Perm DEFAULT_DECK) (h2 : d2.Perm DEFAULT_DECK) :
      Reachable sq atn (initState d1 d2)
  | update_step (s : EngineState) (flag : Bool) (h : Reachable sq atn s) :
      Reachable sq atn (update sq atn flag s).1
  | deploy_step (s : EngineState) (p : PlayerId) (c : String) (x z : ℚ) (h : Reachable sq atn s) :
      Reachable sq atn (deployCard sq s p c x z).1

/-! The `Unit` data class of the shared game module (health clamping). -/

def stDead : String := "dead"

/-- The fields of the shared `Unit` class relevant to `takeDamage`
(timing bookkeeping such as `stateStartTime` is omitted: `Date.now()` is
outside the model and the field is never branched on here). -/
structure UnitC where
  health : ℚ
  maxHealth : ℚ
  state : String
  isInvulnerable : Bool
deriving DecidableEq

/-- `Unit.takeDamage(amount)`: returns the updated unit and the actual
damage dealt. -/
def takeDamage (u : UnitC) (amount : ℚ) : UnitC × ℚ :=
  if u.isInvulnerable || u.state == stDead then (u, 0)
  else
    let actualDamage := min u.health amount
    let h := u.health - actualDamage
    if h ≤ 0 then ({ u with health := 0, state := stDead }, actualDamage)
    else ({ u with health := h }, actualDamage)

/-! Concrete oracles and states used by witnesses and counterexamples. -/

/-- A square-root oracle for scenarios where only order matters. -/
def idSq : ℚ → ℚ := fun q => q

/-- An atan2 oracle (rotation is stored, never branched on). -/
def atnZero : ℚ → ℚ → ℚ := fun _ _ => 0

/-- A fresh engine whose player-1 main tower has been brought to 0 health. -/
def sP1MainDown : EngineState :=
  { initState DEFAULT_DECK DEFAULT_DECK with
    towers1 :=
      { main := { mkMainTower t1MainId ⟨0, -14⟩ with health := 0 },
        left := mkSideTower t1LeftId ⟨-6, -10⟩,
        right := mkSideTower t1RightId ⟨6, -10⟩ } }

/-- A fresh engine with both main towers at 0 health. -/
def sBothMainsDown : EngineState :=
  { sP1MainDown with
    towers2 :=
      { main := { mkMainTower t2MainId ⟨0, 14⟩ with health := 0 },
        left := mkSideTower t2LeftId ⟨-6, 10⟩,
        right := mkSideTower t2RightId ⟨6, 10⟩ } }

/-- A fresh engine whose player 1 has only 2.9 elixir. -/
def sElixir29 : EngineState :=
  { initState DEFAULT_DECK DEFAULT_DECK with
    player1 := { (initState DEFAULT_DECK DEFAULT_DECK).player1 with elixir := 2.9 } }

/-! Claim theorems. -/

/-- C1: whenever player 1's main tower is at ≤ 0 health and player 2's is
alive, the win check reports game over with winner 2 and reason
`main_tower_destroyed`; symmetrically with the roles swapped it reports
winner 1; and `update` returns exactly the win check of the state it
leaves behind, so the same holds for the result of `update`. -/
theorem C1_main_tower_win (s : EngineState) :
    (s.towers1.main.health ≤ 0 → 0 < s.towers2.main.health →
      checkWinCondition s =
        { gameOver := true, winner := some 2, reason := some reasonMainTower })
    ∧ (s.towers2.main.health ≤ 0 → 0 < s.towers1.main.health →
      checkWinCondition s =
        { gameOver := true, winner := some 1, reason := some reasonMainTower })
    ∧ (∀ (sq : ℚ → ℚ) (atn : ℚ → ℚ → ℚ) (flag : Bool),
      (update sq atn flag s).2 = checkWinCondition (update sq atn flag s).1) := by
  refine ⟨?_, ?_, ?_⟩
  · intro h1 _
    simp [checkWinCondition, h1]
  · intro h2 h1
    have : ¬ s.towers1.main.health ≤ 0 := not_le.mpr h1
    simp [checkWinCondition, this, h2]
  · intro sq atn flag
    rfl

/-- Witness for C1 at a concrete state: player 1's main tower destroyed,
player 2's alive. -/
theorem C1_main_tower_win_witness :
    sP1MainDown.towers1.main.health ≤ 0 ∧ 0 < sP1MainDown.towers2.main.health ∧
      checkWinCondition sP1MainDown =
        { gameOver := true, winner := some 2, reason := some reasonMainTower } :=
  ⟨by decide, by decide, (C1_main_tower_win sP1MainDown).1 (by decide) (by decide)⟩

/-- C10: when both main towers are at ≤ 0 health in the same state, the
win check tests player 1's main tower first and therefore awards the game
to player 2; `update` returns the win check of its post-tick state, so a
simultaneous double knockout in a tick is awarded to player 2. -/
theorem C10_double_ko (s : EngineState) :
    (s.towers1.main.health ≤ 0 → s.towers2.main.health ≤ 0 →
      checkWinCondition s =
        { gameOver := true, winner := some 2, reason := some reasonMainTower })
    ∧ (∀ (sq : ℚ → ℚ) (atn : ℚ → ℚ → ℚ) (flag : Bool),
      (update sq atn flag s).2 = checkWinCondition (update sq atn flag s).1) := by
  refine ⟨?_, ?_⟩
  · intro h1 _
    simp [checkWinCondition, h1]
  · intro sq atn flag
    rfl

/-- Witness for C10 at a concrete state with both main towers destroyed. -/
theorem C10_double_ko_witness :
    sBothMainsDown.towers1.main.health ≤ 0 ∧ sBothMainsDown.towers2.main.health ≤ 0 ∧
      checkWinCondition sBothMainsDown =
        { gameOver := true, winner := some 2, reason := some reasonMainTower } :=
  ⟨by decide, by decide, (C10_double_ko sBothMainsDown).1 (by decide) (by decide)⟩

/-- C2: each of the four `deployCard` validation failures (unknown card,
card not in hand, insufficient elixir, illegal position — tested in that
order) returns `success := false` with its descriptive error message and
returns the engine state completely unchanged. -/
theorem C2_deploy_validation (sq : ℚ → ℚ) (s : EngineState) (p : PlayerId) (cardId : String)
    (x z : ℚ) :
    (CARDS cardId = none →
      deployCard sq s p cardId x z = (s, { success := false, error := some errInvalidCard }))
    ∧ (∀ card, CARDS cardId = some card → (getPlayer s p).hand.contains cardId = false →
      deployCard sq s p cardId x z = (s, { success := false, error := some errNotInHand }))
    ∧ (∀ card, CARDS cardId = some card → (getPlayer s p).hand.contains cardId = true →
      (getPlayer s p).elixir < card.elixirCost →
      deployCard sq s p cardId x z = (s, { success := false, error := some errNotEnoughElixir }))
    ∧ (∀ card, CARDS cardId = some card → (getPlayer s p).hand.contains cardId = true →
      ¬ (getPlayer s p).elixir < card.elixirCost → isValidDeployPosition p x z = false →
      deployCard sq s p cardId x z = (s, { success := false, error := some errInvalidPos })) := by
  refine ⟨?_, ?_, ?_, ?_⟩
  · intro h
    simp only [deployCard, h]
  · intro card hc hh
    simp only [deployCard, hc]
    split_ifs <;> simp_all
  · intro card hc hh he
    simp only [deployCard, hc]
    split_ifs <;> simp_all
  · intro card hc hh he hp
    simp only [deployCard, hc]
    split_ifs <;> simp_all

/-- Witness for C2: deploying the cost-3 knight with 2.9 elixir fails with
the `Not enough elixir` error and leaves the state untouched. -/
theorem C2_deploy_validation_witness :
    CARDS knightId = some knightCard ∧
      (getPlayer sElixir29 PlayerId.P1).hand.contains knightId = true ∧
      (getPlayer sElixir29 PlayerId.P1).elixir < knightCard.elixirCost ∧
      deployCard idSq sElixir29 PlayerId.P1 knightId 0 (-3) =
        (sElixir29, { success := false, error := some errNotEnoughElixir }) :=
  have he : (getPlayer sElixir29 PlayerId.P1).elixir < knightCard.elixirCost := by
    norm_num [sElixir29, initState, getPlayer, knightCard]
  ⟨rfl, by decide, he,
    (C2_deploy_validation idSq sElixir29 PlayerId.P1 knightId 0 (-3)).2.2.1 knightCard
      rfl (by decide) he⟩

/-- C9: the tiebreak compares the two players' summed tower health, each
tower clamped below at 0, and returns 1 exactly when player 1's sum is at
least player 2's (so an exact tie goes to player 1), and 2 otherwise. -/
theorem C9_tiebreak (s : EngineState) :
    (getTiebreakWinner s = 1 ↔
      max 0 s.towers2.main.health + max 0 s.towers2.left.health + max 0 s.towers2.right.health
        ≤ max 0 s.towers1.main.health + max 0 s.towers1.left.health
          + max 0 s.towers1.right.health)
    ∧ (getTiebreakWinner s = 2 ↔
      max 0 s.towers1.main.health + max 0 s.towers1.left.health + max 0 s.towers1.right.health
        < max 0 s.towers2.main.health + max 0 s.towers2.left.health
          + max 0 s.towers2.right.health) := by
  simp only [getTiebreakWinner, zero_add]
  split
  · next h =>
    exact ⟨by simp [h], iff_of_false (by norm_num) (not_lt.mpr h)⟩
  · next h =>
    exact ⟨iff_of_false (by norm_num) (by simpa using h), by simp [not_le.mp h]⟩

/-! Helper facts about the abstracted square root and squared distances. -/

theorem getDistance_eq (sq : ℚ → ℚ) (p q : Pos) : getDistance sq p q = sq (dSq p q) := rfl

theorem dSq_nonneg (p q : Pos) : 0 ≤ dSq p q :=
  add_nonneg (mul_self_nonneg _) (mul_self_nonneg _)

theorem sq_lt_iff_of_strictMonoOn {sq : ℚ → ℚ} (hsq : StrictMonoOn sq (Set.Ici (0 : ℚ)))
    {a b : ℚ} (ha : 0 ≤ a) (hb : 0 ≤ b) : sq a < sq b ↔ a < b := by
  constructor
  · intro h
    by_contra hle
    exact absurd (hsq.monotoneOn (Set.mem_Ici.mpr hb) (Set.mem_Ici.mpr ha) (not_lt.mp hle))
      (not_le.mpr h)
  · exact fun h => hsq (Set.mem_Ici.mpr ha) (Set.mem_Ici.mpr hb) h

/-- C5: provided the square-root oracle is strictly monotone on
nonnegative inputs (as the real square root is), `getClosestEnemyTower`
returns a living tower whose (squared) distance is minimal among the
living enemy towers; it returns the main tower only when every living
side tower is strictly farther away — so a living side tower is preferred
over the main tower at equal distance — and it does return the main tower
once both side towers are destroyed and the main tower is alive. -/
theorem C5_closest_tower (sq : ℚ → ℚ) (hsq : StrictMonoOn sq (Set.Ici (0 : ℚ)))
    (position : Pos) (towers : SideTowers)
    (hidl : towers.main.id ≠ towers.left.id) (hidr : towers.main.id ≠ towers.right.id) :
    ((0 < towers.main.health ∨ 0 < towers.left.health ∨ 0 < towers.right.health) →
      ∃ t, getClosestEnemyTower sq position towers = some t ∧ 0 < t.health ∧
        (0 < towers.main.health →
          dSq position t.position ≤ dSq position towers.main.position) ∧
        (0 < towers.left.health →
          dSq position t.position ≤ dSq position towers.left.position) ∧
        (0 < towers.right.health →
          dSq position t.position ≤ dSq position towers.right.position))
    ∧ (∀ t, getClosestEnemyTower sq position towers = some t → t.id = towers.main.id →
        (0 < towers.left.health →
          dSq position towers.main.position < dSq position towers.left.position) ∧
        (0 < towers.right.health →
          dSq position towers.main.position < dSq position towers.right.position))
    ∧ (0 < towers.main.health → towers.left.health ≤ 0 → towers.right.health ≤ 0 →
        getClosestEnemyTower sq position towers = some towers.main) := by
  have key : ∀ {a b : ℚ}, 0 ≤ a → 0 ≤ b → (sq a < sq b ↔ a < b) := fun {a b} ha hb =>
    sq_lt_iff_of_strictMonoOn hsq ha hb
  have hDM := dSq_nonneg position towers.main.position
  have hDL := dSq_nonneg position towers.left.position
  have hDR := dSq_nonneg position towers.right.position
  by_cases hl : towers.left.health ≤ 0
  · by_cases hr : towers.right.health ≤ 0
    · by_cases hm : 0 < towers.main.health
      · -- both sides dead, main alive: the main tower is returned
        have hres : getClosestEnemyTower sq position towers = some towers.main := by
          simp [getClosestEnemyTower, getClosestEnemyTowerK, hl, hr, hm]
        refine ⟨fun _ => ⟨towers.main, hres, hm, fun _ => le_refl _,
          fun h => absurd h (not_lt.mpr hl), fun h => absurd h (not_lt.mpr hr)⟩,
          fun t ht _ => ⟨fun h => absurd h (not_lt.mpr hl), fun h => absurd h (not_lt.mpr hr)⟩,
          fun _ _ _ => hres⟩
      · -- all three towers dead: nothing is returned
        have hres : getClosestEnemyTower sq position towers = none := by
          simp [getClosestEnemyTower, getClosestEnemyTowerK, hl, hr, hm]
        refine ⟨fun halive => ?_, fun t ht => ?_, fun hma => absurd hma hm⟩
        · rcases halive with h | h | h
          · exact absurd h hm
          · exact absurd h (not_lt.mpr hl)
          · exact absurd h (not_lt.mpr hr)
        · rw [hres] at ht
          exact absurd ht (by simp)
    · -- left dead, right alive
      have hr' : 0 < towers.right.health := not_le.mp hr
      by_cases hm : 0 < towers.main.health
      · by_cases hms : sq (dSq position towers.main.position) <
            sq (dSq position towers.right.position)
        · have hmr : dSq position towers.main.position < dSq position towers.right.position :=
            (key hDM hDR).mp hms
          have hres : getClosestEnemyTower sq position towers = some towers.main := by
            simp [getClosestEnemyTower, getClosestEnemyTowerK, getDistance_eq, hl, hr, hm, hms]
          refine ⟨fun _ => ⟨towers.main, hres, hm, fun _ => le_refl _,
            fun h => absurd h (not_lt.mpr hl), fun _ => le_of_lt hmr⟩,
            fun t ht _ => ⟨fun h => absurd h (not_lt.mpr hl), fun _ => hmr⟩,
            fun _ _ hrb => absurd hrb hr⟩
        · have hrm : dSq position towers.right.position ≤ dSq position towers.main.position :=
            not_lt.mp (fun h => hms ((key hDM hDR).mpr h))
          have hres : getClosestEnemyTower sq position towers = some towers.right := by
            simp [getClosestEnemyTower, getClosestEnemyTowerK, getDistance_eq, hl, hr, hm, hms]
          refine ⟨fun _ => ⟨towers.right, hres, hr', fun _ => hrm,
            fun h => absurd h (not_lt.mpr hl), fun _ => le_refl _⟩,
            fun t ht htid => ?_, fun _ _ hrb => absurd hrb hr⟩
          rw [hres] at ht
          obtain rfl : towers.right = t := by simpa using ht
          exact absurd htid.symm hidr
      · have hres : getClosestEnemyTower sq position towers = some towers.right := by
          simp [getClosestEnemyTower, getClosestEnemyTowerK, hl, hr, hm]
        refine ⟨fun _ => ⟨towers.right, hres, hr', fun h => absurd h hm,
          fun h => absurd h (not_lt.mpr hl), fun _ => le_refl _⟩,
          fun t ht htid => ?_, fun hma => absurd hma hm⟩
        rw [hres] at ht
        obtain rfl : towers.right = t := by simpa using ht
        exact absurd htid.symm hidr
  · -- left alive
    have hl' : 0 < towers.left.health := not_le.mp hl
    by_cases hr : towers.right.health ≤ 0
    · by_cases hm : 0 < towers.main.health
      · by_cases hms : sq (dSq position towers.main.position) <
            sq (dSq position towers.left.position)
        · have hml : dSq position towers.main.position < dSq position towers.left.position :=
            (key hDM hDL).mp hms
          have hres : getClosestEnemyTower sq position towers = some towers.main := by
            simp [getClosestEnemyTower, getClosestEnemyTowerK, getDistance_eq, hl, hr, hm, hms]
          refine ⟨fun _ => ⟨towers.main, hres, hm, fun _ => le_refl _,
            fun _ => le_of_lt hml, fun h => absurd h (not_lt.mpr hr)⟩,
            fun t ht _ => ⟨fun _ => hml, fun h => absurd h (not_lt.mpr hr)⟩,
            fun _ hlb => absurd hlb hl⟩
        · have hlm : dSq position towers.left.position ≤ dSq position towers.main.position :=
            not_lt.mp (fun h => hms ((key hDM hDL).mpr h))
          have hres : getClosestEnemyTower sq position towers = some towers.left := by
            simp [getClosestEnemyTower, getClosestEnemyTowerK, getDistance_eq, hl, hr, hm, hms]
          refine ⟨fun _ => ⟨towers.left, hres, hl', fun _ => hlm, fun _ => le_refl _,
            fun h => absurd h (not_lt.mpr hr)⟩,
            fun t ht htid => ?_, fun _ hlb => absurd hlb hl⟩
          rw [hres] at ht
          obtain rfl : towers.left = t := by simpa using ht
          exact absurd htid.symm hidl
      · have hres : getClosestEnemyTower sq position towers = some towers.left := by
          simp [getClosestEnemyTower, getClosestEnemyTowerK, hl, hr, hm]
        refine ⟨fun _ => ⟨towers.left, hres, hl', fun h => absurd h hm, fun _ => le_refl _,
          fun h => absurd h (not_lt.mpr hr)⟩,
          fun t ht htid => ?_, fun hma => absurd hma hm⟩
        rw [hres] at ht
        obtain rfl : towers.left = t := by simpa using ht
        exact absurd htid.symm hidl
    · -- both sides alive
      have hr' : 0 < towers.right.health := not_le.mp hr
      by_cases hlr : sq (dSq position towers.right.position) <
          sq (dSq position towers.left.position)
      · -- right side is the strictly closer side
        have hrl : dSq position towers.right.position < dSq position towers.left.position :=
          (key hDR hDL).mp hlr
        by_cases hm : 0 < towers.main.health
        · by_cases hms : sq (dSq position towers.main.position) <
              sq (dSq position towers.right.position)
          · have hmr : dSq position towers.main.position < dSq position towers.right.position :=
              (key hDM hDR).mp hms
            have hres : getClosestEnemyTower sq position towers = some towers.main := by
              simp [getClosestEnemyTower, getClosestEnemyTowerK, getDistance_eq, hl, hr, hm,
                hlr, hms]
            refine ⟨fun _ => ⟨towers.main, hres, hm, fun _ => le_refl _,
              fun _ => le_of_lt (lt_trans hmr hrl), fun _ => le_of_lt hmr⟩,
              fun t ht _ => ⟨fun _ => lt_trans hmr hrl, fun _ => hmr⟩,
              fun _ hlb => absurd hlb hl⟩
          · have hrm : dSq position towers.right.position ≤ dSq position towers.main.position :=
              not_lt.mp (fun h => hms ((key hDM hDR).mpr h))
            have hres : getClosestEnemyTower sq position towers = some towers.right := by
              simp [getClosestEnemyTower, getClosestEnemyTowerK, getDistance_eq, hl, hr, hm,
                hlr, hms]
            refine ⟨fun _ => ⟨towers.right, hres, hr', fun _ => hrm,
              fun _ => le_of_lt hrl, fun _ => le_refl _⟩,
              fun t ht htid => ?_, fun _ hlb => absurd hlb hl⟩
            rw [hres] at ht
            obtain rfl : towers.right = t := by simpa using ht
            exact absurd htid.symm hidr
        · have hres : getClosestEnemyTower sq position towers = some towers.right := by
            simp [getClosestEnemyTower, getClosestEnemyTowerK, getDistance_eq, hl, hr, hm, hlr]
          refine ⟨fun _ => ⟨towers.right, hres, hr', fun h => absurd h hm,
            fun _ => le_of_lt hrl, fun _ => le_refl _⟩,
            fun t ht htid => ?_, fun hma => absurd hma hm⟩
          rw [hres] at ht
          obtain rfl : towers.right = t := by simpa using ht
          exact absurd htid.symm hidr
      · -- left side is at least as close as right
        have hlr' : dSq position towers.left.position ≤ dSq position towers.right.position :=
          not_lt.mp (fun h => hlr ((key hDR hDL).mpr h))
        by_cases hm : 0 < towers.main.health
        · by_cases hms : sq (dSq position towers.main.position) <
              sq (dSq position towers.left.position)
          · have hml : dSq position towers.main.position < dSq position towers.left.position :=
              (key hDM hDL).mp hms
            have hres : getClosestEnemyTower sq position towers = some towers.main := by
              simp [getClosestEnemyTower, getClosestEnemyTowerK, getDistance_eq, hl, hr, hm,
                hlr, hms]
            refine ⟨fun _ => ⟨towers.main, hres, hm, fun _ => le_refl _,
              fun _ => le_of_lt hml, fun _ => le_of_lt (lt_of_lt_of_le hml hlr')⟩,
              fun t ht _ => ⟨fun _ => hml, fun _ => lt_of_lt_of_le hml hlr'⟩,
              fun _ hlb => absurd hlb hl⟩
          · have hlm : dSq position towers.left.position ≤ dSq position towers.main.position :=
              not_lt.mp (fun h => hms ((key hDM hDL).mpr h))
            have hres : getClosestEnemyTower sq position towers = some towers.left := by
              simp [getClosestEnemyTower, getClosestEnemyTowerK, getDistance_eq, hl, hr, hm,
                hlr, hms]
            refine ⟨fun _ => ⟨towers.left, hres, hl', fun _ => hlm, fun _ => le_refl _,
              fun _ => hlr'⟩,
              fun t ht htid => ?_, fun _ hlb => absurd hlb hl⟩
            rw [hres] at ht
            obtain rfl : towers.left = t := by simpa using ht
            exact absurd htid.symm hidl
        · have hres : getClosestEnemyTower sq position towers = some towers.left := by
            simp [getClosestEnemyTower, getClosestEnemyTowerK, getDistance_eq, hl, hr, hm, hlr]
          refine ⟨fun _ => ⟨towers.left, hres, hl', fun h => absurd h hm, fun _ => le_refl _,
            fun _ => hlr'⟩,
            fun t ht htid => ?_, fun hma => absurd hma hm⟩
          rw [hres] at ht
          obtain rfl : towers.left = t := by simpa using ht
          exact absurd htid.symm hidl

/-- Witness for C5 at a concrete configuration: from the arena origin both
of player 2's side towers are strictly closer than the main tower, and the
left one (checked first) is returned. -/
theorem C5_closest_tower_witness :
    ∃ t, getClosestEnemyTower idSq ⟨0, 0⟩ (initState DEFAULT_DECK DEFAULT_DECK).towers2 =
        some t ∧ 0 < t.health ∧
      (0 < (initState DEFAULT_DECK DEFAULT_DECK).towers2.main.health →
        dSq ⟨0, 0⟩ t.position ≤
          dSq ⟨0, 0⟩ (initState DEFAULT_DECK DEFAULT_DECK).towers2.main.position) ∧
      (0 < (initState DEFAULT_DECK DEFAULT_DECK).towers2.left.health →
        dSq ⟨0, 0⟩ t.position ≤
          dSq ⟨0, 0⟩ (initState DEFAULT_DECK DEFAULT_DECK).towers2.left.position) ∧
      (0 < (initState DEFAULT_DECK DEFAULT_DECK).towers2.right.health →
        dSq ⟨0, 0⟩ t.position ≤
          dSq ⟨0, 0⟩ (initState DEFAULT_DECK DEFAULT_DECK).towers2.right.position) :=
  (C5_closest_tower idSq (fun a _ b _ h => by simpa [idSq] using h) ⟨0, 0⟩
    (initState DEFAULT_DECK DEFAULT_DECK).towers2 (by decide) (by decide)).1
    (by norm_num [initState, mkMainTower])

/-- A position that is on neither bridge is more than `0.1` away from the
center of the bridge the redirection targets (in fact more than `1.5`). -/
theorem bridge_gap {x : ℚ} (h : isOnBridge x = false) :
    0.1 < abs ((if x < 0 then BRIDGE_X_LEFT else BRIDGE_X_RIGHT) - x) := by
  simp only [isOnBridge, BRIDGE_WIDTH, BRIDGE_X_LEFT, BRIDGE_X_RIGHT, Bool.or_eq_false_iff,
    Bool.and_eq_false_iff, decide_eq_false_iff_not, not_le] at h
  obtain ⟨h1, h2⟩ := h
  simp only [BRIDGE_X_LEFT, BRIDGE_X_RIGHT]
  split_ifs with hx
  · rcases h1 with h1 | h1
    · refine lt_abs.mpr (Or.inl ?_)
      norm_num at h1 ⊢
      linarith
    · refine lt_abs.mpr (Or.inr ?_)
      norm_num at h1 ⊢
      linarith
  · rcases h2 with h2 | h2
    · refine lt_abs.mpr (Or.inl ?_)
      norm_num at h2 ⊢
      linarith
    · refine lt_abs.mpr (Or.inr ?_)
      norm_num at h2 ⊢
      linarith

/-- C6: suppose the square-root oracle returns the exact nonnegative root
`d` of the unit's squared distance to its target, the unit is not within
the `0.1` arrival threshold, and speed and tick length are nonnegative.
If the tick's movement would carry the unit's Z across the river band
from its own side while its X is on neither bridge, `moveUnit` keeps Z
unchanged and moves X toward the nearest bridge center by at most
`moveSpeed * deltaTime`; if the unit's X is within a bridge's width it
moves normally (straight toward the target). -/
theorem C6_river_crossing (sq : ℚ → ℚ) (atn : ℚ → ℚ → ℚ) (unit : Unit) (targetPos : Pos)
    (deltaTime : ℚ) (d : ℚ)
    (hd0 : 0 ≤ d)
    (hdsq : d * d = dSq unit.position targetPos)
    (hsq : sq (dSq unit.position targetPos) = d)
    (hfar : ¬ d < 0.1)
    (hspeed : 0 ≤ unit.stats.moveSpeed) (hdt : 0 ≤ deltaTime) :
    (crossesRiver unit.position.z
        (unit.position.z +
          (targetPos.z - unit.position.z) / d * (unit.stats.moveSpeed * deltaTime))
        unit.owner = true →
      isOnBridge unit.position.x = false →
      (moveUnit sq atn unit targetPos deltaTime).position.z = unit.position.z ∧
      (moveUnit sq atn unit targetPos deltaTime).position.x =
        unit.position.x +
          jsSign ((if unit.position.x < 0 then BRIDGE_X_LEFT else BRIDGE_X_RIGHT)
              - unit.position.x) *
            min (unit.stats.moveSpeed * deltaTime)
              (abs ((if unit.position.x < 0 then BRIDGE_X_LEFT else BRIDGE_X_RIGHT)
                - unit.position.x)) ∧
      abs ((moveUnit sq atn unit targetPos deltaTime).position.x - unit.position.x) ≤
        unit.stats.moveSpeed * deltaTime)
    ∧ (isOnBridge unit.position.x = true →
      (moveUnit sq atn unit targetPos deltaTime).position =
        ⟨unit.position.x +
            (targetPos.x - unit.position.x) / d * (unit.stats.moveSpeed * deltaTime),
          unit.position.z +
            (targetPos.z - unit.position.z) / d * (unit.stats.moveSpeed * deltaTime)⟩) := by
  have hsq' : sq ((targetPos.x - unit.position.x) * (targetPos.x - unit.position.x) +
      (targetPos.z - unit.position.z) * (targetPos.z - unit.position.z)) = d := by
    simpa [dSq] using hsq
  constructor
  · intro hcross hbridge
    have hgap := bridge_gap hbridge
    have hz : (moveUnit sq atn unit targetPos deltaTime).position.z = unit.position.z := by
      simp only [moveUnit, hsq', if_neg hfar, hcross, hbridge, Bool.not_false, if_true,
        if_pos hgap]
    have hx : (moveUnit sq atn unit targetPos deltaTime).position.x =
        unit.position.x +
          jsSign ((if unit.position.x < 0 then BRIDGE_X_LEFT else BRIDGE_X_RIGHT)
              - unit.position.x) *
            min (unit.stats.moveSpeed * deltaTime)
              (abs ((if unit.position.x < 0 then BRIDGE_X_LEFT else BRIDGE_X_RIGHT)
                - unit.position.x)) := by
      simp only [moveUnit, hsq', if_neg hfar, hcross, hbridge, Bool.not_false, if_true,
        if_pos hgap]
    have hm0 : 0 ≤ unit.stats.moveSpeed * deltaTime := mul_nonneg hspeed hdt
    refine ⟨hz, hx, ?_⟩
    rw [hx]
    simp only [add_sub_cancel_left]
    set t := (if unit.position.x < 0 then BRIDGE_X_LEFT else BRIDGE_X_RIGHT) - unit.position.x
      with ht
    have hmin0 : 0 ≤ min (unit.stats.moveSpeed * deltaTime) (abs t) :=
      le_min hm0 (abs_nonneg _)
    have hsign : abs (jsSign t) ≤ 1 := by
      unfold jsSign
      split_ifs <;> norm_num
    calc abs (jsSign t * min (unit.stats.moveSpeed * deltaTime) (abs t))
        = abs (jsSign t) * min (unit.stats.moveSpeed * deltaTime) (abs t) := by
          rw [abs_mul, abs_of_nonneg hmin0]
      _ ≤ 1 * min (unit.stats.moveSpeed * deltaTime) (abs t) :=
          mul_le_mul_of_nonneg_right hsign hmin0
      _ = min (unit.stats.moveSpeed * deltaTime) (abs t) := one_mul _
      _ ≤ unit.stats.moveSpeed * deltaTime := min_le_left _ _
  · intro hbridge
    simp only [moveUnit, hsq', if_neg hfar, hbridge, Bool.not_true, Bool.false_eq_true,
      if_false, ite_self]

/-- A concrete player-1 unit south of the river, horizontally between the
two bridges. -/
def cU6 : Unit :=
  { id := 1, cardId := knightId, owner := PlayerId.P1, position := ⟨0, -3⟩, rotation := 0,
    stats := knightCard.stats, health := 800, attackCooldown := 0, spawnTick := 0 }

/-- Witness for C6: moving `cU6` toward `(0, 3)` with a step long enough
to reach the river keeps Z at `-3` and shifts X by at most the step
length. -/
theorem C6_river_crossing_witness :
    (moveUnit (fun _ => (6 : ℚ)) atnZero cU6 ⟨0, 3⟩ 2).position.z = cU6.position.z ∧
      abs ((moveUnit (fun _ => (6 : ℚ)) atnZero cU6 ⟨0, 3⟩ 2).position.x - cU6.position.x) ≤
        cU6.stats.moveSpeed * 2 :=
  have h := (C6_river_crossing (fun _ => (6 : ℚ)) atnZero cU6 ⟨0, 3⟩ 2 6 (by norm_num)
      (by norm_num [dSq, cU6]) rfl (by norm_num) (by norm_num [cU6, knightCard])
      (by norm_num)).1
    (by norm_num [crossesRiver, cU6, knightCard, RIVER_Z, RIVER_WIDTH])
    (by norm_num [isOnBridge, cU6, BRIDGE_WIDTH, BRIDGE_X_LEFT, BRIDGE_X_RIGHT])
  ⟨h.1, h.2.2⟩

theorem le_iff_mul_self_le {a r : ℚ} (ha : 0 ≤ a) (hr : 0 ≤ r) : a ≤ r ↔ a * a ≤ r * r := by
  constructor
  · exact fun h => mul_self_le_mul_self ha h
  · intro h
    by_contra hc
    exact absurd (mul_self_lt_mul_self hr (not_le.mp hc)) (not_lt.mpr h)

/-- C7: when a splash-capable attacker (nonzero, nonnegative splash
radius) fires with its attack cooldown elapsed, every living enemy unit
whose true distance to the target's position is within the splash radius
has its health reduced by the attacker's full damage in that same call —
the target included and with no distance-based falloff.  The hypothesis
on `sq` says the oracle returns the exact nonnegative square root at the
distances involved. -/
theorem C7_splash_damage (sq : ℚ → ℚ) (s : EngineState) (attacker : Unit) (target : Target)
    (deltaTime : ℚ)
    (hsplash : attacker.stats.splashRadius ≠ 0)
    (hrad : 0 ≤ attacker.stats.splashRadius)
    (hcd : attacker.attackCooldown - deltaTime ≤ 0)
    (hsq : ∀ u ∈ s.units, 0 ≤ sq (dSq target.position u.position) ∧
      sq (dSq target.position u.position) * sq (dSq target.position u.position) =
        dSq target.position u.position) :
    ∀ u ∈ s.units, u.owner ≠ attacker.owner → 0 < u.health →
      dSq target.position u.position ≤
        attacker.stats.splashRadius * attacker.stats.splashRadius →
      ∃ u', u' ∈ (processUnitAttack sq s attacker target deltaTime).units ∧
        u'.id = u.id ∧ u'.health = u.health - attacker.stats.damage := by
  intro u hu hne hhp hdist
  obtain ⟨ha, haa⟩ := hsq u hu
  have hhit : splashHit sq target.position attacker.stats.splashRadius attacker.owner u =
      true := by
    have h1 : (u.owner == attacker.owner) = false := by
      simp [hne]
    have h2 : decide (u.health ≤ 0) = false := decide_eq_false (not_le.mpr hhp)
    have h3 : getDistance sq target.position u.position ≤ attacker.stats.splashRadius := by
      rw [getDistance_eq, le_iff_mul_self_le ha hrad, haa]
      exact hdist
    simp [splashHit, h1, h2, h3]
  simp only [processUnitAttack, mapUnits, if_pos hcd, if_pos hsplash]
  refine ⟨_, List.mem_map_of_mem _ (List.mem_map_of_mem _ hu), ?_⟩
  simp only [hhit, if_true]
  split <;> simp

/-- A concrete bomber (splash radius `1.5`) and three clustered enemy
skeletons for the C7 witness. -/
def cAtkC7 : Unit :=
  { id := 10, cardId := bomberId, owner := PlayerId.P1, position := ⟨0, -4⟩, rotation := 0,
    stats := bomberCard.stats, health := 200, attackCooldown := 0, spawnTick := 0 }

def cVictim1 : Unit :=
  { id := 101, cardId := skeletonId, owner := PlayerId.P2, position := ⟨0, 0⟩, rotation := 0,
    stats := skeletonCard.stats, health := 80, attackCooldown := 0, spawnTick := 0 }

def cVictim2 : Unit :=
  { cVictim1 with id := 102, position := ⟨1, 0⟩ }

def cVictim3 : Unit :=
  { cVictim1 with id := 103, position := ⟨0, 1⟩ }

def sC7 : EngineState :=
  { initState DEFAULT_DECK DEFAULT_DECK with units := [cVictim1, cVictim2, cVictim3] }

/-- Witness for C7: the bomber's splash attack on the first skeleton
reduces that skeleton's health by the full 100 damage. -/
theorem C7_splash_damage_witness :
    ∃ u', u' ∈ (processUnitAttack idSq sC7 cAtkC7 (Target.unitT cVictim1) (1 / 20)).units ∧
      u'.id = cVictim1.id ∧ u'.health = cVictim1.health - cAtkC7.stats.damage :=
  C7_splash_damage idSq sC7 cAtkC7 (Target.unitT cVictim1) (1 / 20)
    (by norm_num [cAtkC7, bomberCard]) (by norm_num [cAtkC7, bomberCard])
    (by norm_num [cAtkC7])
    (by
      intro u hu
      simp only [sC7, List.mem_cons, List.not_mem_nil, or_false] at hu
      rcases hu with rfl | rfl | rfl <;>
        constructor <;>
        norm_num [dSq, idSq, Target.position, cVictim1, cVictim2, cVictim3])
    cVictim1 (by simp [sC7]) (by decide) (by norm_num [cVictim1, skeletonCard])
    (by norm_num [dSq, Target.position, cVictim1, cAtkC7, bomberCard])

/-! Player-state preservation: no engine operation other than
`updateElixir`, `deployCard`'s own elixir deduction and hand/deck cycling
touches the two `PlayerState`s. -/

theorem modifyTower_players (s : EngineState) (p : PlayerId) (k : TowerKey) (f : Tower → Tower) :
    (modifyTower s p k f).player1 = s.player1 ∧ (modifyTower s p k f).player2 = s.player2 := by
  cases p <;> exact ⟨rfl, rfl⟩

theorem foldl_players {β : Type} (f : EngineState → β → EngineState)
    (hf : ∀ s b, (f s b).player1 = s.player1 ∧ (f s b).player2 = s.player2) :
    ∀ (l : List β) (s : EngineState),
      (l.foldl f s).player1 = s.player1 ∧ (l.foldl f s).player2 = s.player2
  | [], _ => ⟨rfl, rfl⟩
  | b :: l, s => by
    have h1 := hf s b
    have h2 := foldl_players f hf l (f s b)
    exact ⟨h2.1.trans h1.1, h2.2.trans h1.2⟩

theorem spawnUnits_players (card : Card) (owner : PlayerId) (x z : ℚ) (s : EngineState) :
    (spawnUnits card owner x z s).player1 = s.player1 ∧
      (spawnUnits card owner x z s).player2 = s.player2 := by
  unfold spawnUnits
  constructor
  · refine (foldl_players _ ?_ _ _).1
    intro st i
    exact ⟨rfl, rfl⟩
  · refine (foldl_players _ ?_ _ _).2
    intro st i
    exact ⟨rfl, rfl⟩

theorem processSpell_players (sq : ℚ → ℚ) (cardId : String) (owner : PlayerId) (x z : ℚ)
    (s : EngineState) :
    (processSpell sq cardId owner x z s).player1 = s.player1 ∧
      (processSpell sq cardId owner x z s).player2 = s.player2 := by
  unfold processSpell
  split
  · exact ⟨rfl, rfl⟩
  · split
    · constructor
      · refine (foldl_players _ ?_ _ _).1
        intro st k
        dsimp only
        split
        · exact ⟨rfl, rfl⟩
        · split
          · exact modifyTower_players st _ k _
          · exact ⟨rfl, rfl⟩
      · refine (foldl_players _ ?_ _ _).2
        intro st k
        dsimp only
        split
        · exact ⟨rfl, rfl⟩
        · split
          · exact modifyTower_players st _ k _
          · exact ⟨rfl, rfl⟩
    · exact ⟨rfl, rfl⟩

theorem processUnitAttack_players (sq : ℚ → ℚ) (s : EngineState) (attacker : Unit)
    (target : Target) (deltaTime : ℚ) :
    (processUnitAttack sq s attacker target deltaTime).player1 = s.player1 ∧
      (processUnitAttack sq s attacker target deltaTime).player2 = s.player2 := by
  unfold processUnitAttack
  dsimp only
  split
  · split
    · exact ⟨rfl, rfl⟩
    · split
      · exact ⟨rfl, rfl⟩
      · exact ⟨(modifyTower_players _ _ _ _).1, (modifyTower_players _ _ _ _).2⟩
  · exact ⟨rfl, rfl⟩

theorem towerStep_players (sq : ℚ → ℚ) (deltaTime : ℚ) (s : EngineState)
    (pk : PlayerId × TowerKey) :
    (towerStep sq deltaTime s pk).player1 = s.player1 ∧
      (towerStep sq deltaTime s pk).player2 = s.player2 := by
  unfold towerStep
  dsimp only
  refine ⟨?_, ?_⟩
  · split
    · rfl
    · split
      · rfl
      · split
        · exact (modifyTower_players _ _ _ _).1
        · rfl
  · split
    · rfl
    · split
      · rfl
      · split
        · exact (modifyTower_players _ _ _ _).2
        · rfl

theorem updateTowers_players (sq : ℚ → ℚ) (deltaTime : ℚ) (s : EngineState) :
    (updateTowers sq deltaTime s).player1 = s.player1 ∧
      (updateTowers sq deltaTime s).player2 = s.player2 :=
  foldl_players _ (towerStep_players sq deltaTime) towerPairs s

theorem updateUnitsStep_players (sq : ℚ → ℚ) (atn : ℚ → ℚ → ℚ) (deltaTime : ℚ)
    (acc : EngineState × List Nat) (uid : Nat) :
    (updateUnitsStep sq atn deltaTime acc uid).1.player1 = acc.1.player1 ∧
      (updateUnitsStep sq atn deltaTime acc uid).1.player2 = acc.1.player2 := by
  unfold updateUnitsStep
  dsimp only
  refine ⟨?_, ?_⟩
  · split
    · rfl
    · split
      · rfl
      · split
        · split
          · exact (processUnitAttack_players _ _ _ _ _).1
          · rfl
        · split
          · rfl
          · rfl
  · split
    · rfl
    · split
      · rfl
      · split
        · split
          · exact (processUnitAttack_players _ _ _ _ _).2
          · rfl
        · split
          · rfl
          · rfl

theorem foldl_players_acc (f : (EngineState × List Nat) → Nat → (EngineState × List Nat))
    (hf : ∀ acc b, (f acc b).1.player1 = acc.1.player1 ∧ (f acc b).1.player2 = acc.1.player2) :
    ∀ (l : List Nat) (acc : EngineState × List Nat),
      (l.foldl f acc).1.player1 = acc.1.player1 ∧ (l.foldl f acc).1.player2 = acc.1.player2
  | [], _ => ⟨rfl, rfl⟩
  | b :: l, acc => by
    have h1 := hf acc b
    have h2 := foldl_players_acc f hf l (f acc b)
    exact ⟨h2.1.trans h1.1, h2.2.trans h1.2⟩

theorem updateUnits_players (sq : ℚ → ℚ) (atn : ℚ → ℚ → ℚ) (deltaTime : ℚ) (s : EngineState) :
    (updateUnits sq atn deltaTime s).player1 = s.player1 ∧
      (updateUnits sq atn deltaTime s).player2 = s.player2 := by
  unfold updateUnits
  exact foldl_players_acc _ (updateUnitsStep_players sq atn deltaTime) _ (s, [])

/-- The only change `update` makes to the two player states is the
elixir regeneration clamp. -/
theorem update_players (sq : ℚ → ℚ) (atn : ℚ → ℚ → ℚ) (flag : Bool) (s : EngineState) :
    (update sq atn flag s).1.player1 =
      { s.player1 with elixir := min MAX_ELIXIR (s.player1.elixir +
          (if flag then ELIXIR_REGEN_RATE_DOUBLE else ELIXIR_REGEN_RATE) * (1 / TICK_RATE)) } ∧
    (update sq atn flag s).1.player2 =
      { s.player2 with elixir := min MAX_ELIXIR (s.player2.elixir +
          (if flag then ELIXIR_REGEN_RATE_DOUBLE else ELIXIR_REGEN_RATE) * (1 / TICK_RATE)) } := by
  unfold update
  dsimp only
  have h2 := updateUnits_players sq atn (1 / TICK_RATE)
    (updateElixir (1 / TICK_RATE) flag { s with tickCount := s.tickCount + 1 })
  have h3 := updateTowers_players sq (1 / TICK_RATE)
    (updateUnits sq atn (1 / TICK_RATE)
      (updateElixir (1 / TICK_RATE) flag { s with tickCount := s.tickCount + 1 }))
  exact ⟨h3.1.trans h2.1, h3.2.trans h2.2⟩

/-! List facts used for the hand/deck cycling analysis. -/

theorem indexOf_append_left {l₁ l₂ : List String} {a : String} (h : a ∈ l₁) :
    (l₁ ++ l₂).indexOf a = l₁.indexOf a := by
  induction l₁ with
  | nil => cases h
  | cons b l ih =>
    by_cases hb : (b == a) = true
    · simp [List.indexOf_cons, hb]
    · rcases List.mem_cons.mp h with rfl | h'
      · simp at hb
      · simp only [List.cons_append, List.indexOf_cons, Bool.eq_false_iff.mpr hb]
        simp [hb, ih h']

theorem eraseIdx_take_comm : ∀ (l : List String) (i n : Nat), i ≤ n →
    (l.eraseIdx i).take n = (l.take (n + 1)).eraseIdx i
  | [], _, _, _ => by simp
  | _ :: _, 0, _, _ => by simp [List.eraseIdx]
  | _ :: _, i + 1, 0, h => absurd h (by omega)
  | x :: xs, i + 1, m + 1, h => by
    simp only [List.eraseIdx_cons_succ, List.take_succ_cons]
    rw [eraseIdx_take_comm xs i m (by omega)]

theorem take_append_of_le : ∀ (l₁ l₂ : List String) (n : Nat), n ≤ l₁.length →
    (l₁ ++ l₂).take n = l₁.take n
  | _, _, 0, _ => by simp
  | [], _, n + 1, h => absurd h (by simp)
  | a :: l₁, l₂, n + 1, h => by
    simp only [List.cons_append, List.take_succ_cons]
    rw [take_append_of_le l₁ l₂ n (by simpa using h)]

/-- The hand/deck cycling performed on the success path of `deployCard`,
analysed under the deck invariant (8 distinct cards, hand = first four,
next card = fifth): the played card moves to the back of the deck, the
deck stays a permutation of itself, the new hand is again the first four
cards of the new deck, has exactly 4 cards, no longer contains the played
card, and has gained the previous next card; a fresh next card exists. -/
theorem deck_cycle_spec (deck : List String) (c : String)
    (hlen : deck.length = 8) (hnd : deck.Nodup) (hc : c ∈ deck.take 4) :
    (jsSpliceRemove1 deck (jsIndexOf deck c)).1 ++
        (jsSpliceRemove1 deck (jsIndexOf deck c)).2.toList =
      deck.eraseIdx (deck.indexOf c) ++ [c]
    ∧ (deck.eraseIdx (deck.indexOf c) ++ [c]).length = 8
    ∧ (deck.eraseIdx (deck.indexOf c) ++ [c]).Nodup
    ∧ (deck.take 4).eraseIdx ((deck.take 4).indexOf c) ++ (deck.get? 4).toList =
        (deck.eraseIdx (deck.indexOf c) ++ [c]).take 4
    ∧ (deck.eraseIdx (deck.indexOf c) ++ [c]).get? 4 ≠ none
    ∧ (deck.eraseIdx (deck.indexOf c) ++ [c]).getLast? = some c
    ∧ (deck.eraseIdx (deck.indexOf c) ++ [c]).Perm deck
    ∧ c ∉ (deck.take 4).eraseIdx ((deck.take 4).indexOf c) ++ (deck.get? 4).toList
    ∧ (∀ n, deck.get? 4 = some n →
        n ∈ (deck.take 4).eraseIdx ((deck.take 4).indexOf c) ++ (deck.get? 4).toList)
    ∧ ((deck.take 4).eraseIdx ((deck.take 4).indexOf c) ++ (deck.get? 4).toList).length = 4 := by
  have hmem : c ∈ deck := List.take_subset 4 deck hc
  have hidx : deck.indexOf c < deck.length := List.indexOf_lt_length.mpr hmem
  have htk4 : (deck.take 4).length = 4 := by simp [hlen]
  have hieq : deck.indexOf c = (deck.take 4).indexOf c := by
    conv_lhs => rw [← List.take_append_drop 4 deck]
    exact indexOf_append_left hc
  have hi4 : deck.indexOf c < 4 := by
    rw [hieq]
    have := List.indexOf_lt_length.mpr hc
    omega
  have hsplice : jsSpliceRemove1 deck (jsIndexOf deck c) =
      (deck.eraseIdx (deck.indexOf c), some c) := by
    unfold jsIndexOf jsSpliceRemove1
    rw [if_pos hmem]
    have h0 : ¬ ((deck.indexOf c : Int) < 0) := by omega
    rw [if_neg h0]
    simp only [Int.toNat_natCast]
    rw [if_pos hidx]
    have : deck.get? (deck.indexOf c) = some c := by
      rw [List.get?_eq_getElem?]
      exact List.getElem?_indexOf hmem
    rw [this]
  have herase7 : (deck.eraseIdx (deck.indexOf c)).length = 7 := by
    rw [List.length_eraseIdx, if_pos hidx, hlen]
  have hperm : (deck.eraseIdx (deck.indexOf c) ++ [c]).Perm deck := by
    rw [List.eraseIdx_indexOf_eq_erase]
    exact (List.perm_append_singleton c (deck.erase c)).trans
      (List.perm_cons_erase hmem).symm
  have hsome : deck.get? 4 = some deck[4] := by
    rw [List.get?_eq_getElem?]
    exact List.getElem?_eq_getElem (by omega)
  have ht5 : deck.take (4 + 1) = deck.take 4 ++ (deck.get? 4).toList := by
    rw [List.take_succ, List.get?_eq_getElem?]
  have hhand : (deck.take 4).eraseIdx ((deck.take 4).indexOf c) ++ (deck.get? 4).toList =
      (deck.eraseIdx (deck.indexOf c) ++ [c]).take 4 := by
    rw [take_append_of_le _ _ 4 (by omega)]
    rw [eraseIdx_take_comm deck (deck.indexOf c) 4 (by omega)]
    rw [ht5]
    rw [List.eraseIdx_append_of_lt_length (by rw [htk4]; exact hi4)]
    rw [hieq]
  have hcval : deck[deck.indexOf c] = c := List.getElem_indexOf hidx
  have hnotmem : c ∉ (deck.take 4).eraseIdx ((deck.take 4).indexOf c) ++
      (deck.get? 4).toList := by
    intro hin
    rcases List.mem_append.mp hin with hin | hin
    · rw [List.eraseIdx_indexOf_eq_erase] at hin
      have hnd4 : (deck.take 4).Nodup := List.Sublist.nodup (List.take_sublist 4 deck) hnd
      exact absurd ((hnd4.mem_erase_iff).mp hin).1 (by simp)
    · rw [hsome] at hin
      simp only [Option.toList_some, List.mem_singleton] at hin
      have : deck[deck.indexOf c] = deck[4] := by rw [hcval, hin]
      have := (hnd.getElem_inj_iff).mp this
      omega
  refine ⟨?_, ?_, ?_, hhand, ?_, ?_, hperm, hnotmem, ?_, ?_⟩
  · rw [hsplice]
    rfl
  · simp [List.length_erase_of_mem hmem, hlen]
  · exact (hperm.nodup_iff).mpr hnd
  · have : (deck.eraseIdx (deck.indexOf c) ++ [c]).length = 8 := by
      simp [List.length_erase_of_mem hmem, hlen]
    rw [List.get?_eq_getElem?, List.getElem?_eq_getElem (by omega)]
    simp
  · exact List.getLast?_concat _
  · intro n hn
    exact List.mem_append.mpr (Or.inr (by rw [hn]; simp))
  · have h3 : ((deck.take 4).eraseIdx ((deck.take 4).indexOf c)).length = 3 := by
      rw [List.length_eraseIdx, if_pos (by rw [htk4, ← hieq]; exact hi4), htk4]
    rw [List.length_append, h3, hsome]
    simp

/-! Case analysis of `deployCard`. -/

theorem getPlayer_setPlayer_same (s : EngineState) (p : PlayerId) (ps : PlayerState) :
    getPlayer (setPlayer s p ps) p = ps := by
  cases p <;> rfl

theorem getPlayer_setPlayer_other (s : EngineState) (p : PlayerId) (ps : PlayerState) :
    getPlayer (setPlayer s p ps) (otherPlayer p) = getPlayer s (otherPlayer p) := by
  cases p <;> rfl

theorem getPlayer_congr {s t : EngineState} (h1 : t.player1 = s.player1)
    (h2 : t.player2 = s.player2) : ∀ p, getPlayer t p = getPlayer s p
  | .P1 => h1
  | .P2 => h2

/-- `deployCard` either fails and leaves the state unchanged, or succeeds
having passed all four validations. -/
theorem deployCard_or (sq : ℚ → ℚ) (s : EngineState) (p : PlayerId) (c : String) (x z : ℚ) :
    ((deployCard sq s p c x z).2.success = false ∧ (deployCard sq s p c x z).1 = s)
    ∨ ((deployCard sq s p c x z).2.success = true ∧
        ∃ card, CARDS c = some card ∧ (getPlayer s p).hand.contains c = true ∧
          ¬ (getPlayer s p).elixir < card.elixirCost ∧ isValidDeployPosition p x z = true) := by
  unfold deployCard
  dsimp only
  split
  · exact Or.inl ⟨rfl, rfl⟩
  · next card hcard =>
    split_ifs with h1 h2 h3 <;>
      first
        | exact Or.inl ⟨rfl, rfl⟩
        | exact Or.inr ⟨rfl, card, hcard, h1, h2, h3⟩
        | exact Or.inr ⟨rfl, card, hcard, not_not.mp h1, h2, not_not.mp h3⟩

/-- A failing `deployCard` returns the state unchanged. -/
theorem deployCard_failure_state (sq : ℚ → ℚ) (s : EngineState) (p : PlayerId) (c : String)
    (x z : ℚ) (h : (deployCard sq s p c x z).2.success = false) :
    (deployCard sq s p c x z).1 = s := by
  rcases deployCard_or sq s p c x z with ⟨_, hstate⟩ | ⟨htrue, _⟩
  · exact hstate
  · rw [htrue] at h
    cases h

/-- A successful `deployCard` passed all four validations. -/
theorem deployCard_success_inv (sq : ℚ → ℚ) (s : EngineState) (p : PlayerId) (c : String)
    (x z : ℚ) (h : (deployCard sq s p c x z).2.success = true) :
    ∃ card, CARDS c = some card ∧ (getPlayer s p).hand.contains c = true ∧
      ¬ (getPlayer s p).elixir < card.elixirCost ∧ isValidDeployPosition p x z = true := by
  rcases deployCard_or sq s p c x z with ⟨hfalse, _⟩ | ⟨_, hex⟩
  · rw [hfalse] at h
    cases h
  · exact hex

/-- The effect of a successful `deployCard` on the two player states:
elixir is reduced by the card's cost, the hand and deck are cycled by the
splice/push sequence of the source, and the other player is untouched. -/
theorem deployCard_success_state (sq : ℚ → ℚ) (s : EngineState) (p : PlayerId) (c : String)
    (x z : ℚ) (card : Card) (hcard : CARDS c = some card)
    (hh : (getPlayer s p).hand.contains c = true)
    (he : ¬ (getPlayer s p).elixir < card.elixirCost)
    (hv : isValidDeployPosition p x z = true) :
    (deployCard sq s p c x z).2 = { success := true }
    ∧ (getPlayer (deployCard sq s p c x z).1 p).elixir =
        (getPlayer s p).elixir - card.elixirCost
    ∧ (getPlayer (deployCard sq s p c x z).1 p).hand =
        (getPlayer s p).hand.eraseIdx ((getPlayer s p).hand.indexOf c) ++
          (getPlayer s p).nextCard.toList
    ∧ (getPlayer (deployCard sq s p c x z).1 p).deck =
        (jsSpliceRemove1 (getPlayer s p).deck (jsIndexOf (getPlayer s p).deck c)).1 ++
          (jsSpliceRemove1 (getPlayer s p).deck (jsIndexOf (getPlayer s p).deck c)).2.toList
    ∧ (getPlayer (deployCard sq s p c x z).1 p).nextCard =
        (getPlayer (deployCard sq s p c x z).1 p).deck.get? 4
    ∧ getPlayer (deployCard sq s p c x z).1 (otherPlayer p) = getPlayer s (otherPlayer p) := by
  have hgp : ∀ s1 : EngineState,
      getPlayer (if (card.type == typeSpell) = true then processSpell sq c p x z s1
        else spawnUnits card p x z s1) p = getPlayer s1 p := by
    intro s1
    split
    · exact getPlayer_congr (processSpell_players sq c p x z s1).1
        (processSpell_players sq c p x z s1).2 p
    · exact getPlayer_congr (spawnUnits_players card p x z s1).1
        (spawnUnits_players card p x z s1).2 p
  have hgpo : ∀ s1 : EngineState,
      getPlayer (if (card.type == typeSpell) = true then processSpell sq c p x z s1
        else spawnUnits card p x z s1) (otherPlayer p) = getPlayer s1 (otherPlayer p) := by
    intro s1
    split
    · exact getPlayer_congr (processSpell_players sq c p x z s1).1
        (processSpell_players sq c p x z s1).2 (otherPlayer p)
    · exact getPlayer_congr (spawnUnits_players card p x z s1).1
        (spawnUnits_players card p x z s1).2 (otherPlayer p)
  unfold deployCard
  rw [hcard]
  dsimp only
  rw [if_neg (not_not_intro hh), if_neg he, if_neg (not_not_intro hv)]
  rw [getPlayer_setPlayer_same, getPlayer_setPlayer_other, hgp, hgpo,
    getPlayer_setPlayer_same, getPlayer_setPlayer_other]
  exact ⟨rfl, rfl, rfl, rfl, rfl, rfl⟩

/-! Reachability invariants: elixir bounds and the deck/hand cycle shape. -/

/-- Elixir stays within `[0, MAX_ELIXIR]`. -/
def ElixirInv (ps : PlayerState) : Prop :=
  0 ≤ ps.elixir ∧ ps.elixir ≤ MAX_ELIXIR

/-- The deck always holds the 8 distinct cards, the hand is its first
four and the next-card preview its fifth. -/
def DeckInv (ps : PlayerState) : Prop :=
  ps.deck.length = 8 ∧ ps.deck.Nodup ∧ ps.hand = ps.deck.take 4 ∧ ps.nextCard = ps.deck.get? 4

def StateInv (s : EngineState) : Prop :=
  ∀ q : PlayerId, ElixirInv (getPlayer s q) ∧ DeckInv (getPlayer s q)

theorem elixir_regen_bounds {e : ℚ} (h0 : 0 ≤ e) (flag : Bool) :
    0 ≤ min MAX_ELIXIR (e + (if flag then ELIXIR_REGEN_RATE_DOUBLE else ELIXIR_REGEN_RATE) *
      (1 / TICK_RATE)) ∧
    min MAX_ELIXIR (e + (if flag then ELIXIR_REGEN_RATE_DOUBLE else ELIXIR_REGEN_RATE) *
      (1 / TICK_RATE)) ≤ MAX_ELIXIR := by
  have hrate : 0 ≤ (if flag then ELIXIR_REGEN_RATE_DOUBLE else ELIXIR_REGEN_RATE) *
      (1 / TICK_RATE) := by
    cases flag <;> norm_num [ELIXIR_REGEN_RATE, ELIXIR_REGEN_RATE_DOUBLE, TICK_RATE]
  exact ⟨le_min (by norm_num [MAX_ELIXIR]) (add_nonneg h0 hrate), min_le_left _ _⟩

theorem CARDS_cost_nonneg {c : String} {card : Card} (h : CARDS c = some card) :
    0 ≤ card.elixirCost := by
  unfold CARDS at h
  split_ifs at h <;>
    first
      | (injection h with h
         subst h
         norm_num [knightCard, archerCard, giantCard, minionsCard, fireballCard, skeletonCard,
           musketeerCard, bomberCard])
      | simp at h

/-- Every reachable engine state satisfies the elixir and deck invariants. -/
theorem reachable_inv {sq : ℚ → ℚ} {atn : ℚ → ℚ → ℚ} {s : EngineState}
    (h : Reachable sq atn s) : StateInv s := by
  induction h with
  | init d1 d2 h1 h2 =>
    have hnodup : DEFAULT_DECK.Nodup := by decide
    intro q
    cases q
    · refine ⟨⟨by norm_num [initState, getPlayer, STARTING_ELIXIR],
        by norm_num [initState, getPlayer, STARTING_ELIXIR, MAX_ELIXIR]⟩,
        ?_, h1.nodup_iff.mpr hnodup, rfl, rfl⟩
      show d1.length = 8
      rw [h1.length_eq]
      rfl
    · refine ⟨⟨by norm_num [initState, getPlayer, STARTING_ELIXIR],
        by norm_num [initState, getPlayer, STARTING_ELIXIR, MAX_ELIXIR]⟩,
        ?_, h2.nodup_iff.mpr hnodup, rfl, rfl⟩
      show d2.length = 8
      rw [h2.length_eq]
      rfl
  | update_step s flag hr ih =>
    have hp := update_players sq atn flag s
    intro q
    cases q
    · have hq := ih PlayerId.P1
      rw [show getPlayer (update sq atn flag s).1 PlayerId.P1 =
        (update sq atn flag s).1.player1 from rfl, hp.1]
      exact ⟨elixir_regen_bounds hq.1.1 flag, hq.2⟩
    · have hq := ih PlayerId.P2
      rw [show getPlayer (update sq atn flag s).1 PlayerId.P2 =
        (update sq atn flag s).1.player2 from rfl, hp.2]
      exact ⟨elixir_regen_bounds hq.1.1 flag, hq.2⟩
  | deploy_step s p c x z hr ih =>
    rcases deployCard_or sq s p c x z with ⟨_, hstate⟩ | ⟨hsucc, card, hcard, hh, he, hv⟩
    · rw [hstate]
      exact ih
    · obtain ⟨hres, helix, hhand, hdeck, hnext, hother⟩ :=
        deployCard_success_state sq s p c x z card hcard hh he hv
      obtain ⟨⟨he0, heM⟩, hlen8, hnd, hhand4, hnext4⟩ := ih p
      have hcmem : c ∈ (getPlayer s p).deck.take 4 := by
        have hcm : c ∈ (getPlayer s p).hand := by simpa using hh
        rwa [hhand4] at hcm
      obtain ⟨sA, sB, sC, sD, sE, sF, sG, sH, sI, sJ⟩ :=
        deck_cycle_spec (getPlayer s p).deck c hlen8 hnd hcmem
      intro q
      by_cases hqp : q = p
      · subst hqp
        refine ⟨⟨?_, ?_⟩, ?_, ?_, ?_, hnext⟩
        · rw [helix]
          have := not_lt.mp he
          linarith
        · rw [helix]
          have := CARDS_cost_nonneg hcard
          linarith
        · rw [hdeck, sA]
          exact sB
        · rw [hdeck, sA]
          exact sC
        · rw [hhand, hdeck, hhand4, hnext4, sA]
          exact sD
      · have hq : q = otherPlayer p := by
          cases p <;> cases q <;> simp_all [otherPlayer]
        subst hq
        rw [hother]
        exact ih (otherPlayer p)

/-- C3: in every state reachable from a fresh engine by `update` and
`deployCard` calls, both players' elixir lies in `[0, MAX_ELIXIR]`:
regeneration clamps at the maximum and a successful deploy (which
requires elixir at least the card's cost) never drives it below 0. -/
theorem C3_elixir_bounds (sq : ℚ → ℚ) (atn : ℚ → ℚ → ℚ) (s : EngineState)
    (h : Reachable sq atn s) :
    (0 ≤ s.player1.elixir ∧ s.player1.elixir ≤ MAX_ELIXIR) ∧
    (0 ≤ s.player2.elixir ∧ s.player2.elixir ≤ MAX_ELIXIR) :=
  ⟨(reachable_inv h PlayerId.P1).1, (reachable_inv h PlayerId.P2).1⟩

/-- Witness for C3 at the state reached after one tick from a fresh
engine. -/
theorem C3_elixir_bounds_witness :
    (0 ≤ (update idSq atnZero false (initState DEFAULT_DECK DEFAULT_DECK)).1.player1.elixir ∧
      (update idSq atnZero false
        (initState DEFAULT_DECK DEFAULT_DECK)).1.player1.elixir ≤ MAX_ELIXIR) ∧
    (0 ≤ (update idSq atnZero false (initState DEFAULT_DECK DEFAULT_DECK)).1.player2.elixir ∧
      (update idSq atnZero false
        (initState DEFAULT_DECK DEFAULT_DECK)).1.player2.elixir ≤ MAX_ELIXIR) :=
  C3_elixir_bounds idSq atnZero _
    (Reachable.update_step _ false
      (Reachable.init DEFAULT_DECK DEFAULT_DECK (List.Perm.refl _) (List.Perm.refl _)))

/-- C4: after any successful `deployCard` from a reachable state, the
deploying player's hand again holds exactly 4 cards, the played card is
gone from it, the previously previewed next card has entered it, the
played card sits at the back of the deck (which is still a permutation of
the old deck), and a fresh next card has been drawn (the fifth card of
the new deck, which exists). -/
theorem C4_hand_cycle (sq : ℚ → ℚ) (atn : ℚ → ℚ → ℚ) (s : EngineState)
    (h : Reachable sq atn s) (p : PlayerId) (c : String) (x z : ℚ)
    (hsucc : (deployCard sq s p c x z).2.success = true) :
    (getPlayer (deployCard sq s p c x z).1 p).hand.length = 4
    ∧ c ∉ (getPlayer (deployCard sq s p c x z).1 p).hand
    ∧ (∃ n, (getPlayer s p).nextCard = some n ∧
        n ∈ (getPlayer (deployCard sq s p c x z).1 p).hand)
    ∧ (getPlayer (deployCard sq s p c x z).1 p).deck.getLast? = some c
    ∧ ((getPlayer (deployCard sq s p c x z).1 p).deck).Perm ((getPlayer s p).deck)
    ∧ (getPlayer (deployCard sq s p c x z).1 p).nextCard =
        (getPlayer (deployCard sq s p c x z).1 p).deck.get? 4
    ∧ (getPlayer (deployCard sq s p c x z).1 p).nextCard ≠ none := by
  obtain ⟨card, hcard, hh, he, hv⟩ := deployCard_success_inv sq s p c x z hsucc
  obtain ⟨hres, helix, hhand, hdeck, hnext, hother⟩ :=
    deployCard_success_state sq s p c x z card hcard hh he hv
  obtain ⟨⟨he0, heM⟩, hlen8, hnd, hhand4, hnext4⟩ := reachable_inv h p
  have hcmem : c ∈ (getPlayer s p).deck.take 4 := by
    have hcm : c ∈ (getPlayer s p).hand := by simpa using hh
    rwa [hhand4] at hcm
  obtain ⟨sA, sB, sC, sD, sE, sF, sG, sH, sI, sJ⟩ :=
    deck_cycle_spec (getPlayer s p).deck c hlen8 hnd hcmem
  refine ⟨?_, ?_, ?_, ?_, ?_, hnext, ?_⟩
  · rw [hhand, hhand4, hnext4]
    exact sJ
  · rw [hhand, hhand4, hnext4]
    exact sH
  · obtain ⟨n, hn⟩ : ∃ n, (getPlayer s p).deck.get? 4 = some n := by
      rw [List.get?_eq_getElem?]
      exact ⟨_, List.getElem?_eq_getElem (by omega)⟩
    refine ⟨n, by rw [hnext4]; exact hn, ?_⟩
    rw [hhand, hhand4, hnext4]
    exact sI n hn
  · rw [hdeck, sA]
    exact sF
  · rw [hdeck, sA]
    exact sG
  · rw [hnext, hdeck, sA]
    exact sE

/-- Witness for C4: deploying the knight from a fresh engine. -/
theorem C4_hand_cycle_witness :
    (getPlayer (deployCard idSq (initState DEFAULT_DECK DEFAULT_DECK) PlayerId.P1 knightId 0
        (-3)).1 PlayerId.P1).hand.length = 4
    ∧ knightId ∉ (getPlayer (deployCard idSq (initState DEFAULT_DECK DEFAULT_DECK) PlayerId.P1
        knightId 0 (-3)).1 PlayerId.P1).hand
    ∧ (∃ n, (getPlayer (initState DEFAULT_DECK DEFAULT_DECK) PlayerId.P1).nextCard = some n ∧
        n ∈ (getPlayer (deployCard idSq (initState DEFAULT_DECK DEFAULT_DECK) PlayerId.P1
          knightId 0 (-3)).1 PlayerId.P1).hand)
    ∧ (getPlayer (deployCard idSq (initState DEFAULT_DECK DEFAULT_DECK) PlayerId.P1 knightId 0
        (-3)).1 PlayerId.P1).deck.getLast? = some knightId
    ∧ ((getPlayer (deployCard idSq (initState DEFAULT_DECK DEFAULT_DECK) PlayerId.P1 knightId 0
        (-3)).1 PlayerId.P1).deck).Perm
        ((getPlayer (initState DEFAULT_DECK DEFAULT_DECK) PlayerId.P1).deck)
    ∧ (getPlayer (deployCard idSq (initState DEFAULT_DECK DEFAULT_DECK) PlayerId.P1 knightId 0
        (-3)).1 PlayerId.P1).nextCard =
        (getPlayer (deployCard idSq (initState DEFAULT_DECK DEFAULT_DECK) PlayerId.P1 knightId 0
          (-3)).1 PlayerId.P1).deck.get? 4
    ∧ (getPlayer (deployCard idSq (initState DEFAULT_DECK DEFAULT_DECK) PlayerId.P1 knightId 0
        (-3)).1 PlayerId.P1).nextCard ≠ none :=
  have hs : (deployCard idSq (initState DEFAULT_DECK DEFAULT_DECK) PlayerId.P1 knightId 0
      (-3)).2 = { success := true } :=
    (deployCard_success_state idSq (initState DEFAULT_DECK DEFAULT_DECK) PlayerId.P1 knightId 0
      (-3) knightCard rfl (by decide)
      (by norm_num [initState, getPlayer, knightCard, STARTING_ELIXIR])
      (by norm_num [isValidDeployPosition, ARENA_WIDTH, ARENA_HALF_LENGTH, RIVER_Z,
        RIVER_WIDTH])).1
  C4_hand_cycle idSq atnZero (initState DEFAULT_DECK DEFAULT_DECK)
    (Reachable.init DEFAULT_DECK DEFAULT_DECK (List.Perm.refl _) (List.Perm.refl _))
    PlayerId.P1 knightId 0 (-3) (by rw [hs])

/-! C8: health clamping. The engine's damage paths subtract health without a
floor; the clamp the spec describes lives in the shared `Unit` class. -/

def stIdle : String := "idle"

/-- A deck putting the fireball into player 1's opening hand (a permutation
of the default deck). -/
def d1x : List String :=
  [fireballId, archerId, giantId, minionsId, knightId, skeletonId, musketeerId, bomberId]

/-- A deck putting the skeletons into player 2's opening hand (a permutation
of the default deck). -/
def d2x : List String :=
  [skeletonId, archerId, giantId, minionsId, fireballId, knightId, musketeerId, bomberId]

/-- A reachable state: player 2 deploys skeletons at (6, 1/2), then player 1
casts a fireball at (6, -1/2), inside its radius of the whole cluster. -/
def sBad : EngineState :=
  (deployCard idSq
    (deployCard idSq (initState d1x d2x) PlayerId.P2 skeletonId 6 (1/2)).1
    PlayerId.P1 fireballId 6 (-1/2)).1

/-- Counterexample to C8: `sBad` is reachable from a fresh engine by two
deployCard calls, yet it contains units with strictly negative health,
because `processSpell` subtracts spell damage with no clamp at 0. -/
theorem C8_health_counterexample :
    Reachable idSq atnZero sBad ∧ sBad.units.any (fun u => u.health < 0) = true := by
  refine ⟨?_, by with_unfolding_all decide⟩
  exact Reachable.deploy_step _ PlayerId.P1 fireballId 6 (-1/2)
    (Reachable.deploy_step _ PlayerId.P2 skeletonId 6 (1/2)
      (Reachable.init d1x d2x (by decide) (by decide)))

/-- C8 (amended): the clamp is in the shared `Unit` class, not the engine:
`Unit.takeDamage` never drives a non-negative health below 0, and when it
reduces a vulnerable, living unit's health to 0 it marks the unit dead. -/
theorem C8_take_damage_clamps (u : UnitC) (amount : ℚ) (h : 0 ≤ u.health) :
    0 ≤ (takeDamage u amount).1.health ∧
      ((takeDamage u amount).1.health = 0 → u.isInvulnerable = false →
        u.state ≠ stDead → (takeDamage u amount).1.state = stDead) := by
  unfold takeDamage
  dsimp only
  split_ifs with h1 h2
  · refine ⟨h, fun _ hv hs => ?_⟩
    simp only [Bool.or_eq_true, beq_iff_eq] at h1
    rcases h1 with hi | hd
    · rw [hv] at hi
      exact absurd hi (by simp)
    · exact absurd hd hs
  · exact ⟨le_refl 0, fun _ _ _ => rfl⟩
  · have hp : 0 < u.health - min u.health amount := lt_of_not_le h2
    exact ⟨le_of_lt hp, fun he _ _ => absurd he (ne_of_gt hp)⟩

/-- A live, vulnerable unit for the amended C8 witness. -/
def uWit : UnitC :=
  { health := 80, maxHealth := 100, state := stIdle, isInvulnerable := false }

/-- Witness for the amended C8: 100 damage to an 80-health unit cannot leave
health negative. -/
theorem C8_take_damage_clamps_witness :
    (0 : ℚ) ≤ uWit.health ∧ 0 ≤ (takeDamage uWit 100).1.health :=
  ⟨by norm_num [uWit], (C8_take_damage_clamps uWit 100 (by norm_num [uWit])).1⟩

end FG
